import Mathlib

/-!
# closeio/mongodb_exporter: database and collection status collectors

A shallow embedding of `collector/mongod/database_status.go`,
`collector/mongos/database_status.go` and `collector/mongos/collections_status.go`.

Modelling conventions.

* A `prometheus.GaugeVec` is the finite map from label values to the value last `Set`,
  kept as an association list in insertion order.  The Go library keeps it in a hash map, so
  the order in which `Collect` sends the children of one gauge is unspecified; what is stated
  below about a gauge with several children is about membership, counting or permutation.
* The channel `ch chan<- prometheus.Metric` is the list of samples sent on it, in send order.
* The Go `int` fields are `Int`; the value of a sample is the integer handed to
  `float64(...)` (the conversion itself is not modelled).
* The package-level gauge variables are the mutable state: a `Registry` maps every gauge
  variable to its current `GaugeVec`, and every operation passes the registry along.
* The `*mgo.Session` is the cluster as the collector sees it during one scrape: four reply
  functions, `none` standing for a returned error.
* A Go `map[string]*RawStatus` is the list of its entries in the order the `range` loop
  visits them (Go leaves this order unspecified, and it may change from one loop to the next);
  an entry holds `none` for a nil pointer, which is what a `null` record decodes to.
* Reading a field through a nil pointer panics.  No function of these files recovers, so the
  panic leaves `CollectDatabaseStatus`: an `Outcome` records the gauges and the channel at
  that moment, and a run of scrapes on the same gauges ends with the scrape that panicked.
-/

namespace MongodbExporter

/-! ## Gauges -/

/-- The package-level gauge variables of the `var ( ... )` blocks.  Both packages declare the
five database gauges under the same names; `collections_status.go` declares the six
collection gauges. -/
inductive Metric
  | indexSize
  | dataSize
  | collectionsTotal
  | indexesTotal
  | objectsTotal
  | collectionSize
  | collectionObjectCount
  | collectionAvgObjSize
  | collectionStorageSize
  | collectionIndexes
  | collectionIndexesSize
  deriving DecidableEq, Repr

/-- The `Subsystem` of the gauge's `GaugeOpts`. -/
def Metric.Subsystem : Metric → String
  | .indexSize | .dataSize | .collectionsTotal | .indexesTotal | .objectsTotal => "db"
  | _ => "db_coll"

/-- The `Name` of the gauge's `GaugeOpts`. -/
def Metric.Name : Metric → String
  | .indexSize => "index_size_bytes"
  | .dataSize => "data_size_bytes"
  | .collectionsTotal => "collections_total"
  | .indexesTotal => "indexes_total"
  | .objectsTotal => "objects_total"
  | .collectionSize => "size"
  | .collectionObjectCount => "count"
  | .collectionAvgObjSize => "avgobjsize"
  | .collectionStorageSize => "storage_size"
  | .collectionIndexes => "indexes"
  | .collectionIndexesSize => "indexes_size"

/-- The five database-level gauges. -/
def dbMetrics : List Metric :=
  [.indexSize, .dataSize, .collectionsTotal, .indexesTotal, .objectsTotal]

/-- The six collection-level gauges of the metric catalogue. -/
def collMetrics : List Metric :=
  [.collectionSize, .collectionObjectCount, .collectionAvgObjSize, .collectionStorageSize,
   .collectionIndexes, .collectionIndexesSize]

/-- One metric sent on the channel: the gauge, its label pairs (label name, label value) and
the value. -/
structure Sample where
  metric : Metric
  labels : List (String × String)
  value : Int
  deriving DecidableEq, Repr

/-- The children of a `prometheus.GaugeVec`: label values and the value last set for them. -/
abbrev GaugeVec := List (List String × Int)

/-- The call `g.WithLabelValues(lvs...).Set(v)`: overwrite the child with these label values,
or create it. -/
def GaugeVec.Set : GaugeVec → List String → Int → GaugeVec
  | [], lvs, v => [(lvs, v)]
  | (k, x) :: rest, lvs, v =>
    if k = lvs then (k, v) :: rest else (k, x) :: GaugeVec.Set rest lvs v

/-- The state of the package-level gauge variables. -/
abbrev Registry := Metric → GaugeVec

/-- The state at process start: `prometheus.NewGaugeVec` creates every gauge without
children. -/
def Registry.initial : Registry := fun _ => []

/-- The call `m.WithLabelValues(lvs...).Set(v)` on the gauge variable `m`. -/
def Registry.Set (reg : Registry) (m : Metric) (lvs : List String) (v : Int) : Registry :=
  fun m' => if m' = m then (reg m).Set lvs v else reg m'

/-- The call `m.Collect(ch)`: every child of gauge `m` is sent, its label values paired with
the label names the gauge was declared with. -/
def Registry.Collect (reg : Registry) (labelNames : List String) (m : Metric) : List Sample :=
  (reg m).map fun kv => { metric := m, labels := labelNames.zip kv.1, value := kv.2 }

/-- The call `m.Reset()`: every child of gauge `m` is deleted. -/
def Registry.Reset (reg : Registry) (m : Metric) : Registry :=
  fun m' => if m' = m then [] else reg m'

/-! ## `strings.Split` -/

/-- The scan of `strings.Split` for a one-byte separator: `cur` holds the bytes of the
current field, reversed. -/
def splitAux (sep : Char) : List Char → List Char → List (List Char)
  | cur, [] => [cur.reverse]
  | cur, c :: cs =>
    if c = sep then cur.reverse :: splitAux sep [] cs else splitAux sep (c :: cur) cs

/-- Go's `strings.Split(s, sep)` for a separator of one character: the fields of `s`
between the separators, in order. -/
def Split (s : String) (sep : Char) : List String :=
  (splitAux sep [] s.data).map String.mk

/-- The expression `strings.Split(shard, "/")[0]` of the router-mode `Export`.  `Split`
never returns an empty slice, so the index expression cannot fail. -/
def shardId (shard : String) : String :=
  (Split shard '/').headD ""

/-! ## The cluster seen through the session -/

/-- What the `*mgo.Session` answers during one scrape; `none` is a returned error.  `DB` and
`Coll` are the record types the `dbStats` and `collStats` replies are decoded into. -/
structure Session (DB Coll : Type) where
  /-- The call `session.DatabaseNames()`. -/
  DatabaseNames : Option (List String)
  /-- The call `session.DB(db).Run(bson.D{{"dbStats", 1}, {"scale", 1}}, &dbStatus)`. -/
  dbStats : String → Option DB
  /-- The call `session.DB(db).CollectionNames()`. -/
  CollectionNames : String → Option (List String)
  /-- The call `session.DB(db).Run(bson.D{{"collStats", collection}, {"scale", 1}}, &collStatus)`. -/
  collStats : String → String → Option Coll

/-- How a call that may panic ends: the gauges and what was sent on `ch` when it ended, and
whether it ended by a panic instead of returning. -/
structure Outcome where
  reg : Registry
  ch : List Sample
  panicked : Bool

/-! ## Router mode: package `collector_mongos` -/

namespace Mongos

/-- The struct `RawStatus` of `mongos/database_status.go`. -/
structure RawStatus where
  Name : String
  IndexSize : Int
  DataSize : Int
  Collections : Int
  Objects : Int
  Indexes : Int
  deriving DecidableEq, Repr

/-- The struct `DatabaseStatus` of `mongos/database_status.go`: the embedded `RawStatus` and
the map `Shards map[string]*RawStatus`, given as its entries in the order the `range` loop
visits them; `none` is a nil `*RawStatus`. -/
structure DatabaseStatus extends RawStatus where
  Shards : List (String × Option RawStatus)
  deriving DecidableEq, Repr

/-- The struct `CollectionStatus` of `mongos/collections_status.go`. -/
structure CollectionStatus where
  Size : Int
  Count : Int
  AvgObjSize : Int
  StorageSize : Int
  Indexes : Int
  IndexesSize : Int
  deriving DecidableEq, Repr

/-- The label names the database gauges are declared with in `mongos/database_status.go`. -/
def dbLabelNames : List String := ["db", "shard"]

/-- The label names the collection gauges are declared with in
`mongos/collections_status.go`. -/
def collLabelNames : List String := ["db", "coll"]

/-- The body of the loop `for shard, stats := range dbStatus.Shards` in
`DatabaseStatus.Export`, for a `stats` that is not nil. -/
def setShard (reg : Registry) (entry : String × RawStatus) : Registry :=
  let shard := shardId entry.1
  let stats := entry.2
  ((((reg.Set .indexSize [stats.Name, shard] stats.IndexSize).Set
    .dataSize [stats.Name, shard] stats.DataSize).Set
    .collectionsTotal [stats.Name, shard] stats.Collections).Set
    .indexesTotal [stats.Name, shard] stats.Indexes).Set
    .objectsTotal [stats.Name, shard] stats.Objects

/-- The loop `for shard, stats := range dbStatus.Shards` of `DatabaseStatus.Export`: the
gauges when the loop ends, and whether it ended by a panic.  The first statement of the body
that uses `stats` reads `stats.Name`, which panics when `stats` is nil, before any gauge is
set for that entry. -/
def rangeShards : List (String × Option RawStatus) → Registry → Registry × Bool
  | [], reg => (reg, false)
  | (_, none) :: _, reg => (reg, true)
  | (shard, some stats) :: rest, reg => rangeShards rest (setShard reg (shard, stats))

/-- The method `(dbStatus *DatabaseStatus) Export(ch)` of `mongos/database_status.go`.  A
panic in the loop leaves the method before anything is collected or reset. -/
def DatabaseStatus.Export (dbStatus : DatabaseStatus) (reg : Registry) : Outcome :=
  let r := if dbStatus.Shards.length > 0 then rangeShards dbStatus.Shards reg else (reg, false)
  if r.2 then { reg := r.1, ch := [], panicked := true }
  else
    let reg1 := r.1
    let ch := reg1.Collect dbLabelNames .indexSize ++ reg1.Collect dbLabelNames .dataSize ++
      reg1.Collect dbLabelNames .collectionsTotal ++ reg1.Collect dbLabelNames .indexesTotal ++
      reg1.Collect dbLabelNames .objectsTotal
    { reg := ((((reg1.Reset .indexSize).Reset .dataSize).Reset .collectionsTotal).Reset
        .indexesTotal).Reset .objectsTotal,
      ch := ch, panicked := false }

/-- The method `(collStatus *CollectionStatus) Export(ch, db, coll)` of
`mongos/collections_status.go`. -/
def CollectionStatus.Export (collStatus : CollectionStatus) (db coll : String)
    (reg : Registry) : Registry × List Sample :=
  let reg1 := ((((reg.Set .collectionSize [db, coll] collStatus.Size).Set
    .collectionObjectCount [db, coll] collStatus.Count).Set
    .collectionAvgObjSize [db, coll] collStatus.AvgObjSize).Set
    .collectionStorageSize [db, coll] collStatus.StorageSize).Set
    .collectionIndexes [db, coll] collStatus.Indexes
  let ch := reg1.Collect collLabelNames .collectionSize ++
    reg1.Collect collLabelNames .collectionObjectCount ++
    reg1.Collect collLabelNames .collectionAvgObjSize ++
    reg1.Collect collLabelNames .collectionStorageSize ++
    reg1.Collect collLabelNames .collectionIndexes
  (((((reg1.Reset .collectionSize).Reset .collectionObjectCount).Reset
    .collectionAvgObjSize).Reset .collectionStorageSize).Reset .collectionIndexes, ch)

/-- The function `GetDatabaseStatus(session, db)`: `none` is the `nil` returned on error. -/
def GetDatabaseStatus (session : Session DatabaseStatus CollectionStatus) (db : String) :
    Option DatabaseStatus :=
  match session.dbStats db with
  | none => none
  | some dbStatus => some dbStatus

/-- The function `GetCollectionStatus(session, db, collection)`: `none` is the `nil` returned
on error. -/
def GetCollectionStatus (session : Session DatabaseStatus CollectionStatus)
    (db collection : String) : Option CollectionStatus :=
  match session.collStats db collection with
  | none => none
  | some collStatus => some collStatus

/-- The inner loop `for _, coll := range collAll` of `CollectDatabaseStatus`. -/
def collLoop (session : Session DatabaseStatus CollectionStatus) (db : String) :
    List String → Registry → Registry × List Sample
  | [], reg => (reg, [])
  | coll :: rest, reg =>
    match GetCollectionStatus session db coll with
    | some collStatus =>
      let r := collStatus.Export db coll reg
      let r2 := collLoop session db rest r.1
      (r2.1, r.2 ++ r2.2)
    | none => collLoop session db rest reg

/-- The outer loop `for _, db := range all` of `CollectDatabaseStatus`; the `return` taken
when `CollectionNames` fails ends the loop, and so does a panic of `dbStatus.Export`. -/
def dbLoop (session : Session DatabaseStatus CollectionStatus) :
    List String → Registry → Outcome
  | [], reg => { reg := reg, ch := [], panicked := false }
  | db :: rest, reg =>
    if db ≠ "admin" ∧ db ≠ "test" then
      let r := match GetDatabaseStatus session db with
        | some dbStatus => dbStatus.Export reg
        | none => { reg := reg, ch := [], panicked := false }
      if r.panicked then r
      else
        match session.CollectionNames db with
        | none => r
        | some collAll =>
          let r2 := collLoop session db collAll r.reg
          let r3 := dbLoop session rest r2.1
          { reg := r3.reg, ch := r.ch ++ r2.2 ++ r3.ch, panicked := r3.panicked }
    else dbLoop session rest reg

/-- The function `CollectDatabaseStatus(session, ch)` of `mongos/database_status.go`. -/
def CollectDatabaseStatus (session : Session DatabaseStatus CollectionStatus)
    (reg : Registry) : Outcome :=
  match session.DatabaseNames with
  | none => { reg := reg, ch := [], panicked := false }
  | some all => dbLoop session all reg

end Mongos

/-! ## Standalone mode: package `collector_mongod` -/

namespace Mongod

/-- The struct `DatabaseStatus` of `mongod/database_status.go`. -/
structure DatabaseStatus where
  Name : String
  IndexSize : Int
  DataSize : Int
  Collections : Int
  Objects : Int
  Indexes : Int
  deriving DecidableEq, Repr

/-- Modelled from the spec: the record `CollectionStats` of the data model, which the missing
file `mongod/collections_status.go` decodes the `collStats` reply into (the type of
`collStatus` in `CollectDatabaseStatus`). -/
structure CollectionStatus where
  sizeBytes : Int
  objectCount : Int
  avgObjectSizeBytes : Int
  storageSizeBytes : Int
  indexCount : Int
  totalIndexSizeBytes : Int
  deriving DecidableEq, Repr

/-- The label names the database gauges are declared with in `mongod/database_status.go`. -/
def dbLabelNames : List String := ["db"]

/-- Modelled from the spec: the label schema `db, coll` that the metric catalogue gives the
collection gauges in standalone mode (their declarations are in the missing file
`mongod/collections_status.go`). -/
def collLabelNames : List String := ["db", "coll"]

/-- The method `(dbStatus *DatabaseStatus) Export(ch)` of `mongod/database_status.go`. -/
def DatabaseStatus.Export (dbStatus : DatabaseStatus) (reg : Registry) :
    Registry × List Sample :=
  let reg1 := ((((reg.Set .indexSize [dbStatus.Name] dbStatus.IndexSize).Set
    .dataSize [dbStatus.Name] dbStatus.DataSize).Set
    .collectionsTotal [dbStatus.Name] dbStatus.Collections).Set
    .indexesTotal [dbStatus.Name] dbStatus.Indexes).Set
    .objectsTotal [dbStatus.Name] dbStatus.Objects
  let ch := reg1.Collect dbLabelNames .indexSize ++ reg1.Collect dbLabelNames .dataSize ++
    reg1.Collect dbLabelNames .collectionsTotal ++ reg1.Collect dbLabelNames .indexesTotal ++
    reg1.Collect dbLabelNames .objectsTotal
  (((((reg1.Reset .indexSize).Reset .dataSize).Reset .collectionsTotal).Reset
    .indexesTotal).Reset .objectsTotal, ch)

/-- Modelled from the spec: the method `collStatus.Export(ch, db, coll)` that
`CollectDatabaseStatus` calls and whose file `mongod/collections_status.go` is missing.  The
spec has it `set` one sample per collection metric of the catalogue, labeled `(db, coll)`;
like every `Export` of the sources it receives the channel, so the samples are sent and the
gauges reset within the call. -/
def CollectionStatus.Export (collStatus : CollectionStatus) (db coll : String)
    (reg : Registry) : Registry × List Sample :=
  let reg1 := (((((reg.Set .collectionSize [db, coll] collStatus.sizeBytes).Set
    .collectionObjectCount [db, coll] collStatus.objectCount).Set
    .collectionAvgObjSize [db, coll] collStatus.avgObjectSizeBytes).Set
    .collectionStorageSize [db, coll] collStatus.storageSizeBytes).Set
    .collectionIndexes [db, coll] collStatus.indexCount).Set
    .collectionIndexesSize [db, coll] collStatus.totalIndexSizeBytes
  let ch := reg1.Collect collLabelNames .collectionSize ++
    reg1.Collect collLabelNames .collectionObjectCount ++
    reg1.Collect collLabelNames .collectionAvgObjSize ++
    reg1.Collect collLabelNames .collectionStorageSize ++
    reg1.Collect collLabelNames .collectionIndexes ++
    reg1.Collect collLabelNames .collectionIndexesSize
  ((((((reg1.Reset .collectionSize).Reset .collectionObjectCount).Reset
    .collectionAvgObjSize).Reset .collectionStorageSize).Reset .collectionIndexes).Reset
    .collectionIndexesSize, ch)

/-- The function `GetDatabaseStatus(session, db)`: `none` is the `nil` returned on error. -/
def GetDatabaseStatus (session : Session DatabaseStatus CollectionStatus) (db : String) :
    Option DatabaseStatus :=
  match session.dbStats db with
  | none => none
  | some dbStatus => some dbStatus

/-- Modelled from the spec: the function `GetCollectionStatus(session, db, coll)` of the
missing file `mongod/collections_status.go`, the spec's `fetchCollectionStats`: the decoded
reply, or `none` (a `nil` record) when the query fails. -/
def GetCollectionStatus (session : Session DatabaseStatus CollectionStatus)
    (db collection : String) : Option CollectionStatus :=
  match session.collStats db collection with
  | none => none
  | some collStatus => some collStatus

/-- The inner loop `for _, coll := range collAll` of `CollectDatabaseStatus`. -/
def collLoop (session : Session DatabaseStatus CollectionStatus) (db : String) :
    List String → Registry → Registry × List Sample
  | [], reg => (reg, [])
  | coll :: rest, reg =>
    match GetCollectionStatus session db coll with
    | some collStatus =>
      let r := collStatus.Export db coll reg
      let r2 := collLoop session db rest r.1
      (r2.1, r.2 ++ r2.2)
    | none => collLoop session db rest reg

/-- The outer loop `for _, db := range all` of `CollectDatabaseStatus`; the `return` taken
when `CollectionNames` fails ends the loop. -/
def dbLoop (session : Session DatabaseStatus CollectionStatus) :
    List String → Registry → Registry × List Sample
  | [], reg => (reg, [])
  | db :: rest, reg =>
    if db ≠ "admin" ∧ db ≠ "test" ∧ db ≠ "local" then
      let r := match GetDatabaseStatus session db with
        | some dbStatus => dbStatus.Export reg
        | none => (reg, [])
      match session.CollectionNames db with
      | none => r
      | some collAll =>
        let r2 := collLoop session db collAll r.1
        let r3 := dbLoop session rest r2.1
        (r3.1, r.2 ++ r2.2 ++ r3.2)
    else dbLoop session rest reg

/-- The function `CollectDatabaseStatus(session, ch)` of `mongod/database_status.go`. -/
def CollectDatabaseStatus (session : Session DatabaseStatus CollectionStatus)
    (reg : Registry) : Registry × List Sample :=
  match session.DatabaseNames with
  | none => (reg, [])
  | some all => dbLoop session all reg

end Mongod

/-! ## Vocabulary of the statements -/

/-- The field of a router-mode `RawStatus` that `Export` hands to each database gauge. -/
def Mongos.dbField : Metric → Mongos.RawStatus → Int
  | .indexSize, r => r.IndexSize
  | .dataSize, r => r.DataSize
  | .collectionsTotal, r => r.Collections
  | .indexesTotal, r => r.Indexes
  | .objectsTotal, r => r.Objects
  | _, _ => 0

/-- The field of a standalone `DatabaseStatus` that `Export` hands to each database gauge. -/
def Mongod.dbField : Metric → Mongod.DatabaseStatus → Int
  | .indexSize, r => r.IndexSize
  | .dataSize, r => r.DataSize
  | .collectionsTotal, r => r.Collections
  | .indexesTotal, r => r.Indexes
  | .objectsTotal, r => r.Objects
  | _, _ => 0

/-- The field of a router-mode `CollectionStatus` that belongs to each collection gauge. -/
def Mongos.collField : Metric → Mongos.CollectionStatus → Int
  | .collectionSize, r => r.Size
  | .collectionObjectCount, r => r.Count
  | .collectionAvgObjSize, r => r.AvgObjSize
  | .collectionStorageSize, r => r.StorageSize
  | .collectionIndexes, r => r.Indexes
  | .collectionIndexesSize, r => r.IndexesSize
  | _, _ => 0

/-- The field of a standalone `CollectionStatus` that belongs to each collection gauge. -/
def Mongod.collField : Metric → Mongod.CollectionStatus → Int
  | .collectionSize, r => r.sizeBytes
  | .collectionObjectCount, r => r.objectCount
  | .collectionAvgObjSize, r => r.avgObjectSizeBytes
  | .collectionStorageSize, r => r.storageSizeBytes
  | .collectionIndexes, r => r.indexCount
  | .collectionIndexesSize, r => r.totalIndexSizeBytes
  | _, _ => 0

/-- The label pairs and the gauge of a sample: what two samples must not share. -/
def Sample.key (s : Sample) : Metric × List (String × String) := (s.metric, s.labels)

/-- The samples one router-mode database contributes when its `Export` starts from gauges
without children: nothing when the fetch failed. -/
def Mongos.dbPart (session : Session Mongos.DatabaseStatus Mongos.CollectionStatus)
    (db : String) : List Sample :=
  match Mongos.GetDatabaseStatus session db with
  | some dbStatus => (dbStatus.Export Registry.initial).ch
  | none => []

/-- The entries of a shard map whose record is not nil. -/
def Mongos.records (shards : List (String × Option Mongos.RawStatus)) :
    List (String × Mongos.RawStatus) :=
  shards.filterMap fun e => e.2.map fun stats => (e.1, stats)

/-- Whether the `Export` of the record fetched for a router-mode database panics (it does
not when the fetch failed: nothing is exported then). -/
def Mongos.faults (session : Session Mongos.DatabaseStatus Mongos.CollectionStatus)
    (db : String) : Bool :=
  match Mongos.GetDatabaseStatus session db with
  | some dbStatus => (dbStatus.Export Registry.initial).panicked
  | none => false

/-- The collection listing the router-mode loop obtains for a database: none when the
`Export` of the database panicked, so that `CollectionNames` is never called, and when
`CollectionNames` fails. -/
def Mongos.collectionsListed (session : Session Mongos.DatabaseStatus Mongos.CollectionStatus)
    (db : String) : Option (List String) :=
  if Mongos.faults session db then none else session.CollectionNames db

/-- The samples one router-mode collection contributes when its `Export` starts from gauges
without children: nothing when the fetch failed. -/
def Mongos.collPart (session : Session Mongos.DatabaseStatus Mongos.CollectionStatus)
    (db coll : String) : List Sample :=
  match Mongos.GetCollectionStatus session db coll with
  | some collStatus => (collStatus.Export db coll Registry.initial).2
  | none => []

/-- The samples one standalone database contributes when its `Export` starts from gauges
without children: nothing when the fetch failed. -/
def Mongod.dbPart (session : Session Mongod.DatabaseStatus Mongod.CollectionStatus)
    (db : String) : List Sample :=
  match Mongod.GetDatabaseStatus session db with
  | some dbStatus => (dbStatus.Export Registry.initial).2
  | none => []

/-- The samples one standalone collection contributes when its `Export` starts from gauges
without children: nothing when the fetch failed. -/
def Mongod.collPart (session : Session Mongod.DatabaseStatus Mongod.CollectionStatus)
    (db coll : String) : List Sample :=
  match Mongod.GetCollectionStatus session db coll with
  | some collStatus => (collStatus.Export db coll Registry.initial).2
  | none => []

/-- The databases of the listing that the loop of `CollectDatabaseStatus` processes: the
ones that are not excluded, up to and including the first for which no collection listing is
obtained. -/
def reached (excluded : String → Bool) (collNames : String → Option (List String)) :
    List String → List String
  | [] => []
  | db :: rest =>
    if excluded db then reached excluded collNames rest
    else match collNames db with
      | none => [db]
      | some _ => db :: reached excluded collNames rest

/-- The samples of one processed database: its database part, then the parts of its listed
collections. -/
def entityOut (dbPart : String → List Sample) (collNames : String → Option (List String))
    (collPart : String → String → List Sample) (db : String) : List Sample :=
  dbPart db ++ ((collNames db).getD []).flatMap (collPart db)

/-- The test `db != "admin" && db != "test"` of the router-mode loop, negated. -/
def Mongos.excluded (db : String) : Bool := db = "admin" ∨ db = "test"

/-- The test `db != "admin" && db != "test" && db != "local"` of the standalone loop,
negated. -/
def Mongod.excluded (db : String) : Bool := db = "admin" ∨ db = "test" ∨ db = "local"

/-- A run of `Set` calls on one gauge, in order. -/
def GaugeVec.setAll (g : GaugeVec) (kvs : List (List String × Int)) : GaugeVec :=
  kvs.foldl (fun g kv => g.Set kv.1 kv.2) g

/-- The label values and the value that the router-mode loop body writes to gauge `m` for
one entry of the shard map. -/
def Mongos.shardEntry (m : Metric) (entry : String × Mongos.RawStatus) : List String × Int :=
  ([entry.2.Name, shardId entry.1], Mongos.dbField m entry.2)

/-! ## Concrete inputs -/

/-- A router-mode reply without a shard map. -/
def Mongos.flatReply : Mongos.DatabaseStatus :=
  { Name := "shop", IndexSize := 10, DataSize := 20, Collections := 3, Objects := 40,
    Indexes := 5, Shards := [] }

/-- The statistics of database `shop` on one shard. -/
def Mongos.shopOnShardA : Mongos.RawStatus :=
  { Name := "shop", IndexSize := 1, DataSize := 10, Collections := 1, Objects := 3,
    Indexes := 2 }

/-- The statistics of database `shop` on another shard. -/
def Mongos.shopOnShardB : Mongos.RawStatus :=
  { Name := "shop", IndexSize := 2, DataSize := 20, Collections := 1, Objects := 4,
    Indexes := 2 }

/-- A router-mode reply whose two shard descriptors normalize to the same shard id. -/
def Mongos.collidingReply : Mongos.DatabaseStatus :=
  { Name := "shop", IndexSize := 3, DataSize := 30, Collections := 2, Objects := 7,
    Indexes := 4,
    Shards := [("s1/host-a:27017", some Mongos.shopOnShardA),
               ("s1/host-b:27017", some Mongos.shopOnShardB)] }

/-- A router-mode reply with two shards. -/
def Mongos.twoShardReply : Mongos.DatabaseStatus :=
  { Name := "shop", IndexSize := 3, DataSize := 30, Collections := 2, Objects := 7,
    Indexes := 4,
    Shards := [("shard01/host-a:27017,host-b:27017", some Mongos.shopOnShardA),
               ("shard02/host-c:27017", some Mongos.shopOnShardB)] }

/-- A router-mode `collStats` reply. -/
def Mongos.ordersStatus : Mongos.CollectionStatus :=
  { Size := 100, Count := 4, AvgObjSize := 25, StorageSize := 400, Indexes := 2,
    IndexesSize := 64 }

/-- A router-mode cluster with the databases `a` and `b` in which every stats query succeeds
and `CollectionNames` fails for `a` only. -/
def Mongos.listFailsForA : Session Mongos.DatabaseStatus Mongos.CollectionStatus :=
  { DatabaseNames := some ["a", "b"]
    dbStats := fun db => some
      { Name := db, IndexSize := 2, DataSize := 20, Collections := 1, Objects := 4,
        Indexes := 2,
        Shards := [("shard01/host-a:27017", some { Mongos.shopOnShardB with Name := db })] }
    CollectionNames := fun db => if db = "a" then none else some ["orders"]
    collStats := fun _ _ => some Mongos.ordersStatus }

/-- A standalone cluster with the databases `a` and `b` in which every stats query succeeds
and `CollectionNames` fails for `a` only. -/
def Mongod.listFailsForA : Session Mongod.DatabaseStatus Mongod.CollectionStatus :=
  { DatabaseNames := some ["a", "b"]
    dbStats := fun db => some
      { Name := db, IndexSize := 2, DataSize := 20, Collections := 1, Objects := 4,
        Indexes := 2 }
    CollectionNames := fun db => if db = "a" then none else some ["orders"]
    collStats := fun _ _ => some
      { sizeBytes := 100, objectCount := 4, avgObjectSizeBytes := 25, storageSizeBytes := 400,
        indexCount := 2, totalIndexSizeBytes := 64 } }

/-- A router-mode cluster in which some stats queries fail: the `dbStats` query of database
`logs`, and the `collStats` query of the third of the five collections of `shop`. -/
def Mongos.partialFailure : Session Mongos.DatabaseStatus Mongos.CollectionStatus :=
  { DatabaseNames := some ["admin", "shop", "logs"]
    dbStats := fun db => if db = "shop" then some Mongos.twoShardReply else none
    CollectionNames := fun db =>
      if db = "shop" then some ["c1", "c2", "c3", "c4", "c5"] else some ["events"]
    collStats := fun _ coll => if coll = "c3" then none else some Mongos.ordersStatus }

/-- The gauges after a run of router-mode scrapes, one per session, starting from `reg`;
`none` when a scrape of the run panicked, which ends the run. -/
def Mongos.scrapes : List (Session Mongos.DatabaseStatus Mongos.CollectionStatus) →
    Registry → Option Registry
  | [], reg => some reg
  | session :: hist, reg =>
    if (Mongos.CollectDatabaseStatus session reg).panicked then none
    else Mongos.scrapes hist (Mongos.CollectDatabaseStatus session reg).reg

/-- A router-mode reply whose shard map holds a `null` record for one shard. -/
def Mongos.nullShardReply : Mongos.DatabaseStatus :=
  { Name := "b", IndexSize := 3, DataSize := 30, Collections := 2, Objects := 7,
    Indexes := 4,
    Shards := [("shard01/host-a:27017", none)] }

/-- A router-mode cluster with the databases `a`, `b` and `c`: the `dbStats` query of `a`
fails, the reply for `b` holds a `null` shard record, and every other query succeeds. -/
def Mongos.nullShardRecord : Session Mongos.DatabaseStatus Mongos.CollectionStatus :=
  { DatabaseNames := some ["a", "b", "c"]
    dbStats := fun db =>
      if db = "a" then none
      else if db = "b" then some Mongos.nullShardReply
      else some Mongos.twoShardReply
    CollectionNames := fun _ => some ["orders"]
    collStats := fun _ _ => some Mongos.ordersStatus }

/-- A router-mode cluster whose database `shop` has the collections `orders` and `users`. -/
def Mongos.withOrders : Session Mongos.DatabaseStatus Mongos.CollectionStatus :=
  { DatabaseNames := some ["shop"]
    dbStats := fun _ => some Mongos.twoShardReply
    CollectionNames := fun _ => some ["orders", "users"]
    collStats := fun _ _ => some Mongos.ordersStatus }

/-- The same cluster after the collection `orders` was dropped. -/
def Mongos.ordersDropped : Session Mongos.DatabaseStatus Mongos.CollectionStatus :=
  { Mongos.withOrders with CollectionNames := fun _ => some ["users"] }

/-- A standalone cluster in which some stats queries fail: the `dbStats` query of database
`logs`, and the `collStats` query of the third of the five collections of `shop`. -/
def Mongod.partialFailure : Session Mongod.DatabaseStatus Mongod.CollectionStatus :=
  { DatabaseNames := some ["admin", "local", "shop", "logs"]
    dbStats := fun db =>
      if db = "shop" then
        some { Name := "shop", IndexSize := 3, DataSize := 30, Collections := 5, Objects := 7,
               Indexes := 4 }
      else none
    CollectionNames := fun db =>
      if db = "shop" then some ["c1", "c2", "c3", "c4", "c5"] else some ["events"]
    collStats := fun _ coll =>
      if coll = "c3" then none
      else some { sizeBytes := 100, objectCount := 4, avgObjectSizeBytes := 25,
                  storageSizeBytes := 400, indexCount := 2, totalIndexSizeBytes := 64 } }

/-- A router-mode cluster whose database `shop` has a collection named `test`. -/
def Mongos.collectionNamedTest : Session Mongos.DatabaseStatus Mongos.CollectionStatus :=
  { DatabaseNames := some ["shop"]
    dbStats := fun _ => some Mongos.twoShardReply
    CollectionNames := fun _ => some ["test"]
    collStats := fun _ _ => some Mongos.ordersStatus }

/-- A standalone cluster whose `dbStats` reply for database `shop` names the database
`admin`. -/
def Mongod.replyNamesAdmin : Session Mongod.DatabaseStatus Mongod.CollectionStatus :=
  { DatabaseNames := some ["shop"]
    dbStats := fun _ =>
      some { Name := "admin", IndexSize := 3, DataSize := 30, Collections := 5, Objects := 7,
             Indexes := 4 }
    CollectionNames := fun _ => some []
    collStats := fun _ _ => none }

/-- A standalone cluster whose `dbStats` reply for database `shop` names another
database. -/
def Mongod.replyNamesOther : Session Mongod.DatabaseStatus Mongod.CollectionStatus :=
  { DatabaseNames := some ["shop"]
    dbStats := fun _ =>
      some { Name := "other", IndexSize := 3, DataSize := 30, Collections := 5, Objects := 7,
             Indexes := 4 }
    CollectionNames := fun _ => some []
    collStats := fun _ _ => none }

/-- A standalone cluster in which every query succeeds and every `dbStats` reply names the
database it was asked about. -/
def Mongod.healthy : Session Mongod.DatabaseStatus Mongod.CollectionStatus :=
  { DatabaseNames := some ["admin", "shop", "local", "logs"]
    dbStats := fun db =>
      some { Name := db, IndexSize := 3, DataSize := 30, Collections := 2, Objects := 7,
             Indexes := 4 }
    CollectionNames := fun _ => some ["orders", "users"]
    collStats := fun _ _ =>
      some { sizeBytes := 100, objectCount := 4, avgObjectSizeBytes := 25,
             storageSizeBytes := 400, indexCount := 2, totalIndexSizeBytes := 64 } }

/-- A standalone cluster whose `dbStats` replies for the databases `a` and `b` both name the
database `a`. -/
def Mongod.twoRepliesOneName : Session Mongod.DatabaseStatus Mongod.CollectionStatus :=
  { DatabaseNames := some ["a", "b"]
    dbStats := fun _ =>
      some { Name := "a", IndexSize := 3, DataSize := 30, Collections := 5, Objects := 7,
             Indexes := 4 }
    CollectionNames := fun _ => some []
    collStats := fun _ _ => none }

/-- A router-mode cluster in which every query succeeds and every shard record names the
database the `dbStats` query was about. -/
def Mongos.healthy : Session Mongos.DatabaseStatus Mongos.CollectionStatus :=
  { DatabaseNames := some ["admin", "shop", "logs"]
    dbStats := fun db => some
      { Name := db, IndexSize := 3, DataSize := 30, Collections := 2, Objects := 7,
        Indexes := 4,
        Shards := [("shard01/host-a:27017,host-b:27017",
                      some { Mongos.shopOnShardA with Name := db }),
                   ("shard02/host-c:27017", some { Mongos.shopOnShardB with Name := db })] }
    CollectionNames := fun _ => some ["orders", "users"]
    collStats := fun _ _ => some Mongos.ordersStatus }

/-- Two decodings of the same `dbStats` answer: both queries fail, or both succeed with the
same top-level fields and the same shard map, whose entries the `range` loop may visit in
another order. -/
def Mongos.sameReply : Option Mongos.DatabaseStatus → Option Mongos.DatabaseStatus → Prop
  | some a, some b => a.toRawStatus = b.toRawStatus ∧ a.Shards.Perm b.Shards
  | none, none => True
  | _, _ => False

/-- A router-mode cluster whose database `shop` answers with `collidingReply`. -/
def Mongos.colliding : Session Mongos.DatabaseStatus Mongos.CollectionStatus :=
  { DatabaseNames := some ["shop"]
    dbStats := fun _ => some Mongos.collidingReply
    CollectionNames := fun _ => some []
    collStats := fun _ _ => none }

/-- The reply `collidingReply` with the entries of the shard map visited in the other
order. -/
def Mongos.collidingReplyReordered : Mongos.DatabaseStatus :=
  { Mongos.collidingReply with Shards := Mongos.collidingReply.Shards.reverse }

/-- The reply `twoShardReply` with the entries of the shard map visited in the other
order. -/
def Mongos.twoShardReplyReordered : Mongos.DatabaseStatus :=
  { Mongos.twoShardReply with Shards := Mongos.twoShardReply.Shards.reverse }

/-! ## The gauges between two `Export` calls -/

theorem Mongod.mongod_dbExport_initial (dbStatus : Mongod.DatabaseStatus) :
    (dbStatus.Export Registry.initial).1 = Registry.initial := by
  funext m
  cases m <;> simp [Mongod.DatabaseStatus.Export, Registry.Reset, Registry.Set, Registry.initial]

theorem Mongod.mongod_dbExport_samples (dbStatus : Mongod.DatabaseStatus) :
    (dbStatus.Export Registry.initial).2 =
      dbMetrics.map fun m =>
        { metric := m, labels := [("db", dbStatus.Name)], value := Mongod.dbField m dbStatus } := by
  simp [Mongod.DatabaseStatus.Export, Registry.Collect, Registry.Set, Registry.initial,
    GaugeVec.Set, dbMetrics, Mongod.dbField, Mongod.dbLabelNames]

theorem Mongod.mongod_collExport_initial (collStatus : Mongod.CollectionStatus)
    (db coll : String) : (collStatus.Export db coll Registry.initial).1 = Registry.initial := by
  funext m
  cases m <;>
    simp [Mongod.CollectionStatus.Export, Registry.Reset, Registry.Set, Registry.initial]

theorem Mongod.mongod_collExport_samples (collStatus : Mongod.CollectionStatus)
    (db coll : String) :
    (collStatus.Export db coll Registry.initial).2 =
      collMetrics.map fun m =>
        { metric := m, labels := [("db", db), ("coll", coll)],
          value := Mongod.collField m collStatus } := by
  simp [Mongod.CollectionStatus.Export, Registry.Collect, Registry.Set, Registry.initial,
    GaugeVec.Set, collMetrics, Mongod.collField, Mongod.collLabelNames]

theorem Mongos.mongos_collExport_initial (collStatus : Mongos.CollectionStatus)
    (db coll : String) : (collStatus.Export db coll Registry.initial).1 = Registry.initial := by
  funext m
  cases m <;>
    simp [Mongos.CollectionStatus.Export, Registry.Reset, Registry.Set, Registry.initial]

theorem Mongos.mongos_collExport_samples (collStatus : Mongos.CollectionStatus)
    (db coll : String) :
    (collStatus.Export db coll Registry.initial).2 =
      [.collectionSize, .collectionObjectCount, .collectionAvgObjSize, .collectionStorageSize,
        .collectionIndexes].map fun m =>
        { metric := m, labels := [("db", db), ("coll", coll)],
          value := Mongos.collField m collStatus } := by
  simp [Mongos.CollectionStatus.Export, Registry.Collect, Registry.Set, Registry.initial,
    GaugeVec.Set, Mongos.collField, Mongos.collLabelNames]

/-! ## One gauge under a run of `Set` calls -/

theorem GaugeVec.Set_of_not_mem (g : GaugeVec) (k : List String) (v : Int)
    (h : k ∉ g.map Prod.fst) : g.Set k v = g ++ [(k, v)] := by
  induction g with
  | nil => rfl
  | cons a g ih =>
    obtain ⟨k', x⟩ := a
    simp only [List.map_cons, List.mem_cons, not_or] at h
    simp [GaugeVec.Set, Ne.symm h.1, ih h.2]

theorem GaugeVec.mem_Set (g : GaugeVec) (k : List String) (v : Int) (kv : List String × Int)
    (h : kv ∈ g.Set k v) : kv ∈ g ∨ kv = (k, v) := by
  induction g with
  | nil => simpa [GaugeVec.Set] using h
  | cons a g ih =>
    obtain ⟨k', x⟩ := a
    by_cases hk : k' = k
    · subst hk
      simp only [GaugeVec.Set, if_true, List.mem_cons] at h
      rcases h with h | h
      · exact Or.inr h
      · exact Or.inl (List.mem_cons_of_mem _ h)
    · simp only [GaugeVec.Set, hk, if_false, List.mem_cons] at h
      rcases h with h | h
      · exact Or.inl (h ▸ List.mem_cons_self _ _)
      · rcases ih h with h | h
        · exact Or.inl (List.mem_cons_of_mem _ h)
        · exact Or.inr h

theorem GaugeVec.keys_Set (g : GaugeVec) (k : List String) (v : Int) :
    (g.Set k v).map Prod.fst =
      if k ∈ g.map Prod.fst then g.map Prod.fst else g.map Prod.fst ++ [k] := by
  induction g with
  | nil => simp [GaugeVec.Set]
  | cons a g ih =>
    obtain ⟨k', x⟩ := a
    by_cases hk : k' = k
    · subst hk
      simp [GaugeVec.Set]
    · have hk' : ¬ k = k' := fun h => hk h.symm
      simp only [GaugeVec.Set, hk, if_false, List.map_cons, ih, List.mem_cons, hk', false_or]
      split <;> simp

theorem GaugeVec.nodup_keys_Set (g : GaugeVec) (k : List String) (v : Int)
    (h : (g.map Prod.fst).Nodup) : ((g.Set k v).map Prod.fst).Nodup := by
  rw [GaugeVec.keys_Set]
  split
  · exact h
  · rename_i hk
    exact List.Nodup.append h (List.nodup_singleton _) (by simpa using hk)

theorem GaugeVec.mem_setAll (kvs : List (List String × Int)) (g : GaugeVec)
    (kv : List String × Int) (h : kv ∈ g.setAll kvs) : kv ∈ g ∨ kv ∈ kvs := by
  induction kvs generalizing g with
  | nil => exact Or.inl h
  | cons a kvs ih =>
    rcases ih (g.Set a.1 a.2) h with h | h
    · rcases GaugeVec.mem_Set g a.1 a.2 kv h with h | h
      · exact Or.inl h
      · exact Or.inr (h ▸ List.mem_cons_self _ _)
    · exact Or.inr (List.mem_cons_of_mem _ h)

theorem GaugeVec.nodup_keys_setAll (kvs : List (List String × Int)) (g : GaugeVec)
    (h : (g.map Prod.fst).Nodup) : ((g.setAll kvs).map Prod.fst).Nodup := by
  induction kvs generalizing g with
  | nil => exact h
  | cons a kvs ih => exact ih (g.Set a.1 a.2) (GaugeVec.nodup_keys_Set g a.1 a.2 h)

theorem GaugeVec.setAll_of_nodup (kvs : List (List String × Int)) (g : GaugeVec)
    (h : (kvs.map Prod.fst).Nodup) (hg : ∀ kv ∈ kvs, kv.1 ∉ g.map Prod.fst) :
    g.setAll kvs = g ++ kvs := by
  induction kvs generalizing g with
  | nil => simp [GaugeVec.setAll]
  | cons a kvs ih =>
    have ha : a.1 ∉ g.map Prod.fst := hg a (List.mem_cons_self _ _)
    have hstep : g.setAll (a :: kvs) = (g.Set a.1 a.2).setAll kvs := rfl
    rw [hstep, GaugeVec.Set_of_not_mem g a.1 a.2 ha]
    rw [List.map_cons, List.nodup_cons] at h
    rw [ih (g ++ [a]) h.2]
    · simp
    · intro kv hkv
      simp only [List.map_append, List.map_cons, List.map_nil, List.mem_append,
        List.mem_singleton, not_or]
      refine ⟨hg kv (List.mem_cons_of_mem _ hkv), ?_⟩
      intro heq
      exact h.1 (heq ▸ List.mem_map_of_mem Prod.fst hkv)

/-! ## The router-mode `Export` -/

theorem Mongos.setShard_apply (reg : Registry) (entry : String × Mongos.RawStatus)
    (m : Metric) :
    Mongos.setShard reg entry m =
      if m ∈ dbMetrics then
        (reg m).Set (Mongos.shardEntry m entry).1 (Mongos.shardEntry m entry).2
      else reg m := by
  cases m <;>
    simp [Mongos.setShard, Registry.Set, dbMetrics, Mongos.shardEntry, Mongos.dbField]

theorem Mongos.foldl_setShard_apply (l : List (String × Mongos.RawStatus)) (reg : Registry)
    (m : Metric) :
    l.foldl Mongos.setShard reg m =
      if m ∈ dbMetrics then (reg m).setAll (l.map (Mongos.shardEntry m)) else reg m := by
  induction l generalizing reg with
  | nil => simp [GaugeVec.setAll]
  | cons e l ih =>
    rw [List.foldl_cons, ih, Mongos.setShard_apply]
    split
    · rfl
    · rfl

theorem Mongos.mem_records (shards : List (String × Option Mongos.RawStatus))
    (e : String × Mongos.RawStatus) :
    e ∈ Mongos.records shards ↔ (e.1, some e.2) ∈ shards := by
  simp only [Mongos.records, List.mem_filterMap, Option.map_eq_some']
  constructor
  · rintro ⟨x, hx, stats, hstats, rfl⟩
    rw [← hstats]
    exact hx
  · intro h
    exact ⟨(e.1, some e.2), h, e.2, rfl, rfl⟩

theorem Mongos.rangeShards_of_records (shards : List (String × Option Mongos.RawStatus))
    (reg : Registry) (h : ∀ e ∈ shards, e.2 ≠ none) :
    Mongos.rangeShards shards reg =
      ((Mongos.records shards).foldl Mongos.setShard reg, false) := by
  induction shards generalizing reg with
  | nil => rfl
  | cons e shards ih =>
    obtain ⟨shard, stats⟩ := e
    cases stats with
    | none => exact absurd rfl (h _ (List.mem_cons_self _ _))
    | some stats =>
      rw [Mongos.rangeShards, ih _ fun x hx => h x (List.mem_cons_of_mem _ hx)]
      simp [Mongos.records]

theorem Mongos.rangeShards_of_nil (shards : List (String × Option Mongos.RawStatus))
    (reg : Registry) (h : ∃ e ∈ shards, e.2 = none) :
    (Mongos.rangeShards shards reg).2 = true := by
  induction shards generalizing reg with
  | nil =>
    obtain ⟨e, he, _⟩ := h
    cases he
  | cons e shards ih =>
    obtain ⟨shard, stats⟩ := e
    cases stats with
    | none => rfl
    | some stats =>
      rw [Mongos.rangeShards]
      apply ih
      obtain ⟨x, hx, hnone⟩ := h
      rcases List.mem_cons.1 hx with rfl | hx
      · cases hnone
      · exact ⟨x, hx, hnone⟩

theorem Mongos.mongos_dbExport_loop (dbStatus : Mongos.DatabaseStatus) (reg : Registry)
    (h : ∀ e ∈ dbStatus.Shards, e.2 ≠ none) :
    (if dbStatus.Shards.length > 0 then Mongos.rangeShards dbStatus.Shards reg
      else (reg, false)) =
      ((Mongos.records dbStatus.Shards).foldl Mongos.setShard reg, false) := by
  rw [Mongos.rangeShards_of_records _ _ h]
  cases dbStatus.Shards with
  | nil => simp [Mongos.records]
  | cons e l => simp

theorem Mongos.mongos_dbExport_returns (dbStatus : Mongos.DatabaseStatus) (reg : Registry)
    (h : ∀ e ∈ dbStatus.Shards, e.2 ≠ none) :
    (dbStatus.Export reg).panicked = false := by
  simp only [Mongos.DatabaseStatus.Export, Mongos.mongos_dbExport_loop dbStatus _ h]
  simp

theorem Mongos.mongos_dbExport_panics (dbStatus : Mongos.DatabaseStatus) (reg : Registry)
    (h : ∃ e ∈ dbStatus.Shards, e.2 = none) :
    (dbStatus.Export reg).panicked = true ∧ (dbStatus.Export reg).ch = [] := by
  have hne : dbStatus.Shards.length > 0 := by
    obtain ⟨e, he, _⟩ := h
    exact List.length_pos_of_mem he
  have hr := Mongos.rangeShards_of_nil dbStatus.Shards reg h
  simp only [Mongos.DatabaseStatus.Export, if_pos hne, hr]
  simp

theorem Mongos.mongos_dbExport_cases (dbStatus : Mongos.DatabaseStatus) :
    (∀ e ∈ dbStatus.Shards, e.2 ≠ none) ∨ ∃ e ∈ dbStatus.Shards, e.2 = none := by
  by_cases h : ∃ e ∈ dbStatus.Shards, e.2 = none
  · exact Or.inr h
  · exact Or.inl fun e he hnone => h ⟨e, he, hnone⟩

theorem Mongos.mongos_dbExport_initial (dbStatus : Mongos.DatabaseStatus)
    (hp : (dbStatus.Export Registry.initial).panicked = false) :
    (dbStatus.Export Registry.initial).reg = Registry.initial := by
  rcases Mongos.mongos_dbExport_cases dbStatus with h | h
  · funext m
    simp only [Mongos.DatabaseStatus.Export, Mongos.mongos_dbExport_loop dbStatus _ h]
    cases m <;>
      simp [Registry.Reset, Mongos.foldl_setShard_apply, dbMetrics, Registry.initial]
  · rw [(Mongos.mongos_dbExport_panics dbStatus _ h).1] at hp
    cases hp

theorem Mongos.mongos_dbExport_samples (dbStatus : Mongos.DatabaseStatus)
    (h : ∀ e ∈ dbStatus.Shards, e.2 ≠ none) :
    (dbStatus.Export Registry.initial).ch =
      dbMetrics.flatMap fun m =>
        (GaugeVec.setAll []
          ((Mongos.records dbStatus.Shards).map (Mongos.shardEntry m))).map fun kv =>
          { metric := m, labels := Mongos.dbLabelNames.zip kv.1, value := kv.2 } := by
  simp only [Mongos.DatabaseStatus.Export, Mongos.mongos_dbExport_loop dbStatus _ h]
  simp [Registry.Collect, Mongos.foldl_setShard_apply, dbMetrics, Registry.initial]

/-! ## The loops of `CollectDatabaseStatus` between gauges without children -/

theorem Mongos.mongos_collLoop_initial (session : Session Mongos.DatabaseStatus Mongos.CollectionStatus)
    (db : String) (colls : List String) :
    Mongos.collLoop session db colls Registry.initial =
      (Registry.initial, colls.flatMap (Mongos.collPart session db)) := by
  induction colls with
  | nil => rfl
  | cons c colls ih =>
    cases h : Mongos.GetCollectionStatus session db c with
    | none => simp [Mongos.collLoop, Mongos.collPart, h, ih]
    | some cs =>
      simp [Mongos.collLoop, Mongos.collPart, h, ih, Mongos.mongos_collExport_initial]

theorem Mongos.mongos_dbLoop_initial (session : Session Mongos.DatabaseStatus Mongos.CollectionStatus)
    (all : List String) :
    (Mongos.dbLoop session all Registry.initial).ch =
        (reached Mongos.excluded (Mongos.collectionsListed session) all).flatMap
          (entityOut (Mongos.dbPart session) (Mongos.collectionsListed session)
            (Mongos.collPart session)) ∧
    ((Mongos.dbLoop session all Registry.initial).panicked = false →
      (Mongos.dbLoop session all Registry.initial).reg = Registry.initial) ∧
    ((∀ db ∈ all, Mongos.faults session db = false) →
      (Mongos.dbLoop session all Registry.initial).panicked = false) := by
  induction all with
  | nil => exact ⟨rfl, fun _ => rfl, fun _ => rfl⟩
  | cons db all ih =>
    obtain ⟨ih1, ih2, ih3⟩ := ih
    by_cases hx : db ≠ "admin" ∧ db ≠ "test"
    · have hex : Mongos.excluded db = false := by simp [Mongos.excluded, hx.1, hx.2]
      have key : ∃ E : Outcome,
          (match Mongos.GetDatabaseStatus session db with
            | some dbStatus => dbStatus.Export Registry.initial
            | none => { reg := Registry.initial, ch := [], panicked := false }) = E ∧
          E.ch = Mongos.dbPart session db ∧ E.panicked = Mongos.faults session db ∧
          (E.panicked = false → E.reg = Registry.initial) := by
        cases h : Mongos.GetDatabaseStatus session db with
        | none =>
          exact ⟨_, rfl, by simp [Mongos.dbPart, h], by simp [Mongos.faults, h], fun _ => rfl⟩
        | some st =>
          exact ⟨_, rfl, by simp [Mongos.dbPart, h], by simp [Mongos.faults, h],
            Mongos.mongos_dbExport_initial st⟩
      obtain ⟨E, hE, hch, hpan, hreg⟩ := key
      simp only [Mongos.dbLoop, if_pos hx, hE]
      cases hp : E.panicked with
      | true =>
        have hf : Mongos.faults session db = true := by rw [← hpan, hp]
        refine ⟨?_, ?_, ?_⟩
        · simp [reached, hex, Mongos.collectionsListed, hf, entityOut, hch]
        · simp [hp]
        · intro hall
          have := hall db (List.mem_cons_self _ _)
          rw [hf] at this
          cases this
      | false =>
        have hf : Mongos.faults session db = false := by rw [← hpan, hp]
        have hr := hreg hp
        cases hc : session.CollectionNames db with
        | none =>
          refine ⟨?_, ?_, ?_⟩
          · simp [reached, hex, Mongos.collectionsListed, hf, hc, entityOut, hch]
          · simp [hr]
          · simp [hp]
        | some colls =>
          simp only [hr, Mongos.mongos_collLoop_initial, Bool.false_eq_true, if_false]
          refine ⟨?_, ih2, ?_⟩
          · simp [reached, hex, Mongos.collectionsListed, hf, hc, entityOut, hch, ih1]
          · intro hall
            exact ih3 fun d hd => hall d (List.mem_cons_of_mem _ hd)
    · have hex : Mongos.excluded db = true := by
        simp only [Mongos.excluded, decide_eq_true_eq]
        by_contra hcon
        exact hx ⟨fun h => hcon (Or.inl h), fun h => hcon (Or.inr h)⟩
      simp only [Mongos.dbLoop, if_neg hx]
      refine ⟨?_, ih2, ?_⟩
      · simp [reached, hex, ih1]
      · intro hall
        exact ih3 fun d hd => hall d (List.mem_cons_of_mem _ hd)

theorem Mongod.mongod_collLoop_initial (session : Session Mongod.DatabaseStatus Mongod.CollectionStatus)
    (db : String) (colls : List String) :
    Mongod.collLoop session db colls Registry.initial =
      (Registry.initial, colls.flatMap (Mongod.collPart session db)) := by
  induction colls with
  | nil => rfl
  | cons c colls ih =>
    cases h : Mongod.GetCollectionStatus session db c with
    | none => simp [Mongod.collLoop, Mongod.collPart, h, ih]
    | some cs =>
      simp [Mongod.collLoop, Mongod.collPart, h, ih, Mongod.mongod_collExport_initial]

theorem Mongod.mongod_dbLoop_initial (session : Session Mongod.DatabaseStatus Mongod.CollectionStatus)
    (all : List String) :
    Mongod.dbLoop session all Registry.initial =
      (Registry.initial,
        (reached Mongod.excluded session.CollectionNames all).flatMap
          (entityOut (Mongod.dbPart session) session.CollectionNames
            (Mongod.collPart session))) := by
  induction all with
  | nil => rfl
  | cons db all ih =>
    by_cases hx : db ≠ "admin" ∧ db ≠ "test" ∧ db ≠ "local"
    · have hex : Mongod.excluded db = false := by
        simp [Mongod.excluded, hx.1, hx.2.1, hx.2.2]
      have hdb : (match Mongod.GetDatabaseStatus session db with
          | some dbStatus => dbStatus.Export Registry.initial
          | none => (Registry.initial, [])) = (Registry.initial, Mongod.dbPart session db) := by
        cases h : Mongod.GetDatabaseStatus session db with
        | none => simp [Mongod.dbPart, h]
        | some st =>
          simp only [Mongod.dbPart, h]
          exact Prod.ext (Mongod.mongod_dbExport_initial st) rfl
      cases hc : session.CollectionNames db with
      | none =>
        simp only [Mongod.dbLoop, if_pos hx, hdb, hc, reached, hex]
        simp [entityOut, hc]
      | some colls =>
        simp only [Mongod.dbLoop, if_pos hx, hdb, hc, reached, hex, Mongod.mongod_collLoop_initial, ih]
        simp [entityOut, hc]
    · have hex : Mongod.excluded db = true := by
        simp only [Mongod.excluded, decide_eq_true_eq]
        by_contra hcon
        exact hx ⟨fun h => hcon (Or.inl h), fun h => hcon (Or.inr (Or.inl h)),
          fun h => hcon (Or.inr (Or.inr h))⟩
      simp only [Mongod.dbLoop, if_neg hx, reached, hex, ih]
      simp

theorem Mongos.mongos_CollectDatabaseStatus_initial
    (session : Session Mongos.DatabaseStatus Mongos.CollectionStatus) :
    (Mongos.CollectDatabaseStatus session Registry.initial).ch =
        (reached Mongos.excluded (Mongos.collectionsListed session)
          (session.DatabaseNames.getD [])).flatMap
          (entityOut (Mongos.dbPart session) (Mongos.collectionsListed session)
            (Mongos.collPart session)) := by
  cases h : session.DatabaseNames with
  | none => simp [Mongos.CollectDatabaseStatus, h, reached]
  | some all =>
    simp only [Mongos.CollectDatabaseStatus, h, Option.getD_some]
    exact (Mongos.mongos_dbLoop_initial session all).1

theorem Mongos.mongos_CollectDatabaseStatus_reg
    (session : Session Mongos.DatabaseStatus Mongos.CollectionStatus)
    (hp : (Mongos.CollectDatabaseStatus session Registry.initial).panicked = false) :
    (Mongos.CollectDatabaseStatus session Registry.initial).reg = Registry.initial := by
  revert hp
  cases h : session.DatabaseNames with
  | none => simp [Mongos.CollectDatabaseStatus, h]
  | some all =>
    simp only [Mongos.CollectDatabaseStatus, h]
    exact (Mongos.mongos_dbLoop_initial session all).2.1

theorem Mongos.mongos_CollectDatabaseStatus_returns
    (session : Session Mongos.DatabaseStatus Mongos.CollectionStatus)
    (hf : ∀ db, Mongos.faults session db = false) :
    (Mongos.CollectDatabaseStatus session Registry.initial).panicked = false := by
  cases h : session.DatabaseNames with
  | none => simp [Mongos.CollectDatabaseStatus, h]
  | some all =>
    simp only [Mongos.CollectDatabaseStatus, h]
    exact (Mongos.mongos_dbLoop_initial session all).2.2 fun db _ => hf db

theorem Mongos.collectionsListed_some
    (session : Session Mongos.DatabaseStatus Mongos.CollectionStatus) (db : String)
    (colls : List String) (h : Mongos.collectionsListed session db = some colls) :
    session.CollectionNames db = some colls := by
  unfold Mongos.collectionsListed at h
  split at h
  · cases h
  · exact h

theorem Mongos.mem_collectionsListed
    (session : Session Mongos.DatabaseStatus Mongos.CollectionStatus) (db coll : String)
    (h : coll ∈ (Mongos.collectionsListed session db).getD []) :
    coll ∈ (session.CollectionNames db).getD [] := by
  cases hc : Mongos.collectionsListed session db with
  | none => simp [hc] at h
  | some colls =>
    rw [Mongos.collectionsListed_some session db colls hc]
    simpa [hc] using h

theorem Mongod.mongod_CollectDatabaseStatus_initial
    (session : Session Mongod.DatabaseStatus Mongod.CollectionStatus) :
    Mongod.CollectDatabaseStatus session Registry.initial =
      (Registry.initial,
        (reached Mongod.excluded session.CollectionNames
          (session.DatabaseNames.getD [])).flatMap
          (entityOut (Mongod.dbPart session) session.CollectionNames
            (Mongod.collPart session))) := by
  cases h : session.DatabaseNames with
  | none => simp [Mongod.CollectDatabaseStatus, h, reached]
  | some all => simp [Mongod.CollectDatabaseStatus, h, Mongod.mongod_dbLoop_initial]

/-! ## The databases the loop processes -/

theorem reached_sublist (excluded : String → Bool) (collNames : String → Option (List String))
    (all : List String) : (reached excluded collNames all).Sublist all := by
  induction all with
  | nil => exact List.Sublist.refl _
  | cons db all ih =>
    unfold reached
    split
    · exact List.Sublist.cons _ ih
    · split
      · exact List.Sublist.cons₂ _ (List.nil_sublist _)
      · exact List.Sublist.cons₂ _ ih

theorem not_excluded_of_mem_reached (excluded : String → Bool)
    (collNames : String → Option (List String)) (all : List String) (db : String)
    (h : db ∈ reached excluded collNames all) : excluded db = false := by
  induction all with
  | nil => simp [reached] at h
  | cons d all ih =>
    unfold reached at h
    split at h
    · exact ih h
    · rename_i hd
      split at h
      · simp only [List.mem_singleton] at h
        subst h
        simpa using hd
      · rcases List.mem_cons.1 h with h | h
        · subst h
          simpa using hd
        · exact ih h

theorem mem_reached_of_before (excluded : String → Bool)
    (collNames : String → Option (List String)) (pre post : List String) (db : String)
    (hdb : excluded db = false)
    (hpre : ∀ d ∈ pre, excluded d = false → (collNames d).isSome) :
    db ∈ reached excluded collNames (pre ++ db :: post) := by
  induction pre with
  | nil =>
    simp only [List.nil_append, reached, hdb]
    cases collNames db <;> simp
  | cons d pre ih =>
    have ih' := ih fun x hx => hpre x (List.mem_cons_of_mem _ hx)
    simp only [List.cons_append, reached]
    cases hd : excluded d with
    | true => simpa using ih'
    | false =>
      have hs := hpre d (List.mem_cons_self _ _) hd
      cases hc : collNames d with
      | none => simp [hc] at hs
      | some colls => simp [ih']

/-! ## The shard label -/

theorem splitAux_head (sep : Char) (s cur : List Char) :
    ∃ t, splitAux sep cur s = (cur.reverse ++ s.takeWhile fun c => c != sep) :: t := by
  induction s generalizing cur with
  | nil => exact ⟨[], by simp [splitAux]⟩
  | cons c s ih =>
    by_cases hc : c = sep
    · exact ⟨splitAux sep [] s, by simp [splitAux, hc]⟩
    · obtain ⟨t, ht⟩ := ih (c :: cur)
      exact ⟨t, by simp [splitAux, hc, ht, List.takeWhile_cons]⟩

theorem shardId_eq (shard : String) :
    shardId shard = String.mk (shard.data.takeWhile fun c => c != '/') := by
  obtain ⟨t, ht⟩ := splitAux_head '/' shard.data []
  simp [shardId, Split, ht]

theorem GaugeVec.key_mem_setAll (kvs : List (List String × Int)) (g : GaugeVec)
    (k : List String) (h : k ∈ g.map Prod.fst ∨ k ∈ kvs.map Prod.fst) :
    k ∈ (g.setAll kvs).map Prod.fst := by
  induction kvs generalizing g with
  | nil =>
    rcases h with h | h
    · exact h
    · simp at h
  | cons a kvs ih =>
    apply ih (g.Set a.1 a.2)
    rw [GaugeVec.keys_Set]
    rcases h with h | h
    · left
      split
      · exact h
      · exact List.mem_append_left _ h
    · rcases List.mem_cons.1 h with h | h
      · left
        rw [h]
        split
        · assumption
        · simp
      · exact Or.inr h

theorem Mongos.mongos_mem_Export (dbStatus : Mongos.DatabaseStatus) (smp : Sample)
    (h : smp ∈ (dbStatus.Export Registry.initial).ch) :
    ∃ m ∈ dbMetrics, ∃ e ∈ Mongos.records dbStatus.Shards,
      smp = { metric := m, labels := [("db", e.2.Name), ("shard", shardId e.1)],
              value := Mongos.dbField m e.2 } := by
  rcases Mongos.mongos_dbExport_cases dbStatus with hrec | hnil
  · rw [Mongos.mongos_dbExport_samples dbStatus hrec, List.mem_flatMap] at h
    obtain ⟨m, hm, h⟩ := h
    obtain ⟨kv, hkv, rfl⟩ := List.mem_map.1 h
    rcases GaugeVec.mem_setAll _ _ kv hkv with hkv | hkv
    · simp at hkv
    · obtain ⟨e, he, rfl⟩ := List.mem_map.1 hkv
      exact ⟨m, hm, e, he, by simp [Mongos.shardEntry, Mongos.dbLabelNames]⟩
  · rw [(Mongos.mongos_dbExport_panics dbStatus _ hnil).2] at h
    cases h

theorem Mongos.mongos_Export_writes (dbStatus : Mongos.DatabaseStatus)
    (hrec : ∀ e ∈ dbStatus.Shards, e.2 ≠ none) (m : Metric) (hm : m ∈ dbMetrics)
    (e : String × Mongos.RawStatus) (he : e ∈ Mongos.records dbStatus.Shards) :
    ∃ smp ∈ (dbStatus.Export Registry.initial).ch,
      smp.metric = m ∧ smp.labels = [("db", e.2.Name), ("shard", shardId e.1)] := by
  have hk : [e.2.Name, shardId e.1] ∈ (GaugeVec.setAll []
      ((Mongos.records dbStatus.Shards).map (Mongos.shardEntry m))).map Prod.fst := by
    apply GaugeVec.key_mem_setAll
    right
    exact List.mem_map.2 ⟨Mongos.shardEntry m e, List.mem_map_of_mem _ he, rfl⟩
  obtain ⟨kv, hkv, hkey⟩ := List.mem_map.1 hk
  refine ⟨{ metric := m, labels := Mongos.dbLabelNames.zip kv.1, value := kv.2 }, ?_, rfl, ?_⟩
  · rw [Mongos.mongos_dbExport_samples dbStatus hrec, List.mem_flatMap]
    exact ⟨m, hm, List.mem_map.2 ⟨kv, hkv, rfl⟩⟩
  · simp [hkey, Mongos.dbLabelNames]

/-- C8: the shard id that `strings.Split(shard, "/")[0]` yields is the part of the shard
descriptor before its first `/` (the whole descriptor when it has none); the descriptor
`shard01/host-a:27017,host-b:27017` gives `shard01`; and for a fetched record whose shard
map holds no nil record, the label tuples of the samples that the router-mode `Export`
emits for each of its five gauges are exactly the tuples made of the `Name` of a record of
the shard map and of that part of its descriptor: every entry has its label written, and
no other label is. -/
theorem Mongos.shard_label_before_first_slash (shard : String)
    (dbStatus : Mongos.DatabaseStatus) (hrec : ∀ e ∈ dbStatus.Shards, e.2 ≠ none) :
    shardId shard = String.mk (shard.data.takeWhile fun c => c != '/') ∧
    shardId "shard01/host-a:27017,host-b:27017" = "shard01" ∧
    ∀ m ∈ dbMetrics, ∀ ls,
      (∃ smp ∈ (dbStatus.Export Registry.initial).ch, smp.metric = m ∧ smp.labels = ls) ↔
        ∃ e ∈ Mongos.records dbStatus.Shards,
          ls = [("db", e.2.Name),
                ("shard", String.mk (e.1.data.takeWhile fun c => c != '/'))] := by
  refine ⟨shardId_eq shard, by decide, ?_⟩
  intro m hm ls
  constructor
  · rintro ⟨smp, hsmp, _, rfl⟩
    obtain ⟨_, _, e, he, rfl⟩ := Mongos.mongos_mem_Export dbStatus smp hsmp
    exact ⟨e, he, by simp [shardId_eq]⟩
  · rintro ⟨e, he, rfl⟩
    obtain ⟨smp, hsmp, hmetric, hlabels⟩ := Mongos.mongos_Export_writes dbStatus hrec m hm e he
    exact ⟨smp, hsmp, hmetric, by rw [hlabels, shardId_eq]⟩

/-- C8, witness: the reply with the descriptors `shard01/host-a:27017,host-b:27017` and
`shard02/host-c:27017`; the sample of `index_size_bytes` for the first is emitted with the
shard label `shard01`. -/
theorem Mongos.shard_label_before_first_slash_witness :
    ({ metric := .indexSize, labels := [("db", "shop"), ("shard", "shard01")], value := 1 } ∈
      (Mongos.twoShardReply.Export Registry.initial).ch) ∧
    (shardId "shard02/host-c:27017" =
        String.mk ("shard02/host-c:27017".data.takeWhile fun c => c != '/') ∧
      shardId "shard01/host-a:27017,host-b:27017" = "shard01" ∧
      ∀ m ∈ dbMetrics, ∀ ls,
        (∃ smp ∈ (Mongos.twoShardReply.Export Registry.initial).ch,
            smp.metric = m ∧ smp.labels = ls) ↔
          ∃ e ∈ Mongos.records Mongos.twoShardReply.Shards,
            ls = [("db", e.2.Name),
                  ("shard", String.mk (e.1.data.takeWhile fun c => c != '/'))]) :=
  ⟨by decide,
    Mongos.shard_label_before_first_slash "shard02/host-c:27017" Mongos.twoShardReply
      (by decide)⟩

/-! ## What one `Export` emits -/

theorem Mongos.shardEntry_keys (m : Metric) (shards : List (String × Mongos.RawStatus))
    (h : (shards.map fun e => (e.2.Name, shardId e.1)).Nodup) :
    ((shards.map (Mongos.shardEntry m)).map Prod.fst).Nodup := by
  have hinj : Function.Injective fun p : String × String => [p.1, p.2] := by
    intro p q hpq
    simp only [List.cons.injEq, and_true] at hpq
    exact Prod.ext hpq.1 hpq.2
  have := List.Nodup.map hinj h
  simpa [List.map_map, Function.comp_def, Mongos.shardEntry] using this

theorem Mongos.Export_samples_of_nodup (dbStatus : Mongos.DatabaseStatus)
    (hrec : ∀ e ∈ dbStatus.Shards, e.2 ≠ none)
    (h : ((Mongos.records dbStatus.Shards).map fun e => (e.2.Name, shardId e.1)).Nodup) :
    (dbStatus.Export Registry.initial).ch =
      dbMetrics.flatMap fun m => (Mongos.records dbStatus.Shards).map fun e =>
        { metric := m, labels := [("db", e.2.Name), ("shard", shardId e.1)],
          value := Mongos.dbField m e.2 } := by
  rw [Mongos.mongos_dbExport_samples dbStatus hrec]
  congr 1
  funext m
  rw [GaugeVec.setAll_of_nodup _ [] (Mongos.shardEntry_keys m _ h) (by simp)]
  simp [List.map_map, Function.comp_def, Mongos.shardEntry, Mongos.dbLabelNames]

/-- C1, as amended: in router mode `Export` of a fetched record whose shard map holds no nil
record and whose entries yield pairwise distinct (`Name`, shard id) label pairs returns and
emits, for each of the five database gauges, exactly one sample per shard, labeled with that
shard record's `Name` and the shard id and carrying that shard's field; for a record without
shard map it emits no sample. -/
theorem Mongos.Export_one_sample_per_shard (dbStatus : Mongos.DatabaseStatus)
    (hrec : ∀ e ∈ dbStatus.Shards, e.2 ≠ none)
    (h : ((Mongos.records dbStatus.Shards).map fun e => (e.2.Name, shardId e.1)).Nodup) :
    (dbStatus.Export Registry.initial).panicked = false ∧
    ((dbStatus.Export Registry.initial).ch.Perm
      (dbMetrics.flatMap fun m => (Mongos.records dbStatus.Shards).map fun e =>
        { metric := m, labels := [("db", e.2.Name), ("shard", shardId e.1)],
          value := Mongos.dbField m e.2 })) ∧
    (dbStatus.Shards = [] → (dbStatus.Export Registry.initial).ch = []) := by
  refine ⟨Mongos.mongos_dbExport_returns dbStatus _ hrec,
    List.Perm.of_eq (Mongos.Export_samples_of_nodup dbStatus hrec h), ?_⟩
  intro hs
  rw [Mongos.Export_samples_of_nodup dbStatus hrec h, hs]
  simp [dbMetrics, Mongos.records]

/-- C1, witness: a reply with the shards `shard01` and `shard02`. -/
theorem Mongos.Export_one_sample_per_shard_witness :
    (Mongos.twoShardReply.Export Registry.initial).panicked = false ∧
    ((Mongos.twoShardReply.Export Registry.initial).ch.Perm
      (dbMetrics.flatMap fun m => (Mongos.records Mongos.twoShardReply.Shards).map fun e =>
        { metric := m, labels := [("db", e.2.Name), ("shard", shardId e.1)],
          value := Mongos.dbField m e.2 })) ∧
    (Mongos.twoShardReply.Shards = [] →
      (Mongos.twoShardReply.Export Registry.initial).ch = []) :=
  Mongos.Export_one_sample_per_shard Mongos.twoShardReply (by decide) (by decide)

/-- C1, counterexample: a fetched router-mode record without shard map makes `Export` emit
no sample at all, not one per metric from the flat record; and two shard descriptors with
the same shard id and `Name` give one sample per metric, not one per shard. -/
theorem Mongos.Export_flat_record_emits_nothing :
    Mongos.flatReply.Shards = [] ∧
    (Mongos.flatReply.Export Registry.initial).ch = [] ∧
    Mongos.collidingReply.Shards.length = 2 ∧
    ((Mongos.collidingReply.Export Registry.initial).ch.filter
      fun s => s.metric = Metric.indexSize).length = 1 := by
  decide

/-- C2, at the failing input: `Export` of a fetched collection record emits samples of five
gauges only; no sample of `indexes_size` is among them. -/
theorem Mongos.CollectionStatus_Export_omits_indexes_size :
    (Mongos.ordersStatus.Export "shop" "orders" Registry.initial).2 =
      [{ metric := .collectionSize, labels := [("db", "shop"), ("coll", "orders")],
         value := 100 },
       { metric := .collectionObjectCount, labels := [("db", "shop"), ("coll", "orders")],
         value := 4 },
       { metric := .collectionAvgObjSize, labels := [("db", "shop"), ("coll", "orders")],
         value := 25 },
       { metric := .collectionStorageSize, labels := [("db", "shop"), ("coll", "orders")],
         value := 400 },
       { metric := .collectionIndexes, labels := [("db", "shop"), ("coll", "orders")],
         value := 2 }] ∧
    Metric.collectionIndexesSize ∉
      (Mongos.ordersStatus.Export "shop" "orders" Registry.initial).2.map Sample.metric := by
  decide

/-- C3, at the failing input: with the databases `a` and `b` listed and `CollectionNames`
failing for `a`, both packages emit the database samples of `a` and then stop: no sample of
database `b` is emitted although all of its queries would succeed. -/
theorem CollectDatabaseStatus_stops_when_listing_fails :
    ((Mongos.CollectDatabaseStatus Mongos.listFailsForA Registry.initial).ch =
        Mongos.dbPart Mongos.listFailsForA "a" ∧
      ∀ s ∈ (Mongos.CollectDatabaseStatus Mongos.listFailsForA Registry.initial).ch,
        ("db", "b") ∉ s.labels) ∧
    ((Mongod.CollectDatabaseStatus Mongod.listFailsForA Registry.initial).2 =
        Mongod.dbPart Mongod.listFailsForA "a" ∧
      ∀ s ∈ (Mongod.CollectDatabaseStatus Mongod.listFailsForA Registry.initial).2,
        ("db", "b") ∉ s.labels) := by
  decide

/-! ## Failed stats queries -/

theorem Mongos.mongos_dbPart_eq (session : Session Mongos.DatabaseStatus Mongos.CollectionStatus)
    (db : String) :
    Mongos.dbPart session db =
      match session.dbStats db with
      | some dbStatus => (dbStatus.Export Registry.initial).ch
      | none => [] := by
  unfold Mongos.dbPart Mongos.GetDatabaseStatus
  cases session.dbStats db <;> rfl

theorem Mongos.mongos_collPart_eq (session : Session Mongos.DatabaseStatus Mongos.CollectionStatus)
    (db coll : String) :
    Mongos.collPart session db coll =
      match session.collStats db coll with
      | some collStatus => (collStatus.Export db coll Registry.initial).2
      | none => [] := by
  unfold Mongos.collPart Mongos.GetCollectionStatus
  cases session.collStats db coll <;> rfl

theorem Mongos.mongos_excluded_eq_false (db : String) :
    Mongos.excluded db = false ↔ db ≠ "admin" ∧ db ≠ "test" := by
  simp [Mongos.excluded]

theorem Mongod.mongod_excluded_eq_false (db : String) :
    Mongod.excluded db = false ↔ db ≠ "admin" ∧ db ≠ "test" ∧ db ≠ "local" := by
  simp [Mongod.excluded]

/-- C7, at the failing input: the databases `a`, `b` and `c` are listed, the `dbStats` query
of `a` fails and the reply for `b` holds a `null` shard record.  The failed fetch of `a` is
skipped and the collection of `a` is exported, but `Export` of the record fetched for `b`
panics: the scrape ends by the panic, with the five samples of that collection as its only
samples, and neither the collection of `b` nor anything of `c` is emitted although all their
queries succeed. -/
theorem Mongos.null_shard_record_aborts_scrape :
    Mongos.nullShardRecord.dbStats "a" = none ∧
    (Mongos.nullShardRecord.dbStats "b").isSome ∧
    (Mongos.nullShardRecord.dbStats "c").isSome ∧
    (Mongos.CollectDatabaseStatus Mongos.nullShardRecord Registry.initial).panicked = true ∧
    (Mongos.CollectDatabaseStatus Mongos.nullShardRecord Registry.initial).ch =
      (Mongos.ordersStatus.Export "a" "orders" Registry.initial).2 ∧
    (∀ s ∈ (Mongos.CollectDatabaseStatus Mongos.nullShardRecord Registry.initial).ch,
      ("db", "b") ∉ s.labels ∧ ("db", "c") ∉ s.labels) := by
  decide

/-! ## The shape of the emitted samples -/

theorem mem_scrape (dbPart : String → List Sample) (collNames : String → Option (List String))
    (collPart : String → String → List Sample) (l : List String) (s : Sample)
    (h : s ∈ l.flatMap (entityOut dbPart collNames collPart)) :
    ∃ db ∈ l, s ∈ dbPart db ∨ ∃ coll ∈ (collNames db).getD [], s ∈ collPart db coll := by
  obtain ⟨db, hdb, hs⟩ := List.mem_flatMap.1 h
  refine ⟨db, hdb, ?_⟩
  rcases List.mem_append.1 hs with hs | hs
  · exact Or.inl hs
  · obtain ⟨coll, hcoll, hs⟩ := List.mem_flatMap.1 hs
    exact Or.inr ⟨coll, hcoll, hs⟩

theorem Mongos.mongos_mem_dbPart (session : Session Mongos.DatabaseStatus Mongos.CollectionStatus)
    (db : String) (s : Sample) (h : s ∈ Mongos.dbPart session db) :
    ∃ r, session.dbStats db = some r ∧ ∃ m ∈ dbMetrics, ∃ e ∈ Mongos.records r.Shards,
      s = { metric := m, labels := [("db", e.2.Name), ("shard", shardId e.1)],
            value := Mongos.dbField m e.2 } := by
  rw [Mongos.mongos_dbPart_eq] at h
  cases hr : session.dbStats db with
  | none => simp [hr] at h
  | some r =>
    simp only [hr] at h
    exact ⟨r, rfl, Mongos.mongos_mem_Export r s h⟩

theorem Mongos.mongos_mem_collPart (session : Session Mongos.DatabaseStatus Mongos.CollectionStatus)
    (db coll : String) (s : Sample) (h : s ∈ Mongos.collPart session db coll) :
    ∃ r, session.collStats db coll = some r ∧ ∃ m ∈ collMetrics,
      s = { metric := m, labels := [("db", db), ("coll", coll)],
            value := Mongos.collField m r } := by
  rw [Mongos.mongos_collPart_eq] at h
  cases hr : session.collStats db coll with
  | none => simp [hr] at h
  | some r =>
    simp only [hr, Mongos.mongos_collExport_samples] at h
    obtain ⟨m, hm, rfl⟩ := List.mem_map.1 h
    refine ⟨r, rfl, m, ?_, rfl⟩
    simp only [collMetrics]
    simp only [List.mem_cons, List.mem_singleton, List.not_mem_nil, or_false] at hm ⊢
    tauto

theorem Mongod.mongod_dbPart_eq (session : Session Mongod.DatabaseStatus Mongod.CollectionStatus)
    (db : String) :
    Mongod.dbPart session db =
      match session.dbStats db with
      | some dbStatus => (dbStatus.Export Registry.initial).2
      | none => [] := by
  unfold Mongod.dbPart Mongod.GetDatabaseStatus
  cases session.dbStats db <;> rfl

theorem Mongod.mongod_collPart_eq (session : Session Mongod.DatabaseStatus Mongod.CollectionStatus)
    (db coll : String) :
    Mongod.collPart session db coll =
      match session.collStats db coll with
      | some collStatus => (collStatus.Export db coll Registry.initial).2
      | none => [] := by
  unfold Mongod.collPart Mongod.GetCollectionStatus
  cases session.collStats db coll <;> rfl

theorem Mongod.mongod_mem_dbPart (session : Session Mongod.DatabaseStatus Mongod.CollectionStatus)
    (db : String) (s : Sample) (h : s ∈ Mongod.dbPart session db) :
    ∃ r, session.dbStats db = some r ∧ ∃ m ∈ dbMetrics,
      s = { metric := m, labels := [("db", r.Name)], value := Mongod.dbField m r } := by
  rw [Mongod.mongod_dbPart_eq] at h
  cases hr : session.dbStats db with
  | none => simp [hr] at h
  | some r =>
    simp only [hr, Mongod.mongod_dbExport_samples] at h
    obtain ⟨m, hm, rfl⟩ := List.mem_map.1 h
    exact ⟨r, rfl, m, hm, rfl⟩

theorem Mongod.mongod_mem_collPart (session : Session Mongod.DatabaseStatus Mongod.CollectionStatus)
    (db coll : String) (s : Sample) (h : s ∈ Mongod.collPart session db coll) :
    ∃ r, session.collStats db coll = some r ∧ ∃ m ∈ collMetrics,
      s = { metric := m, labels := [("db", db), ("coll", coll)],
            value := Mongod.collField m r } := by
  rw [Mongod.mongod_collPart_eq] at h
  cases hr : session.collStats db coll with
  | none => simp [hr] at h
  | some r =>
    simp only [hr, Mongod.mongod_collExport_samples] at h
    obtain ⟨m, hm, rfl⟩ := List.mem_map.1 h
    exact ⟨r, rfl, m, hm, rfl⟩

/-! ## Excluded databases -/

/-- C4, as amended: when every `dbStats` reply names the database it was asked about (in
router mode: every record of its shard map that is not nil does), no sample emitted by
`CollectDatabaseStatus` has an excluded database name as the value of its `db` label:
`admin`, `test` and `local` in standalone mode, `admin` and `test` in router mode.  The
values of the `coll` and `shard` labels are not constrained. -/
theorem excluded_never_db_label
    (sd : Session Mongod.DatabaseStatus Mongod.CollectionStatus)
    (ss : Session Mongos.DatabaseStatus Mongos.CollectionStatus)
    (hd : ∀ db r, sd.dbStats db = some r → r.Name = db)
    (hs : ∀ db r, ss.dbStats db = some r →
      ∀ e ∈ r.Shards, ∀ stats, e.2 = some stats → stats.Name = db) :
    (∀ s ∈ (Mongod.CollectDatabaseStatus sd Registry.initial).2, ∀ v,
      ("db", v) ∈ s.labels → v ≠ "admin" ∧ v ≠ "test" ∧ v ≠ "local") ∧
    (∀ s ∈ (Mongos.CollectDatabaseStatus ss Registry.initial).ch, ∀ v,
      ("db", v) ∈ s.labels → v ≠ "admin" ∧ v ≠ "test") := by
  constructor
  · intro s hmem v hv
    rw [Mongod.mongod_CollectDatabaseStatus_initial] at hmem
    obtain ⟨db, hdb, hcase⟩ := mem_scrape _ _ _ _ s hmem
    have hex := (Mongod.mongod_excluded_eq_false db).1 (not_excluded_of_mem_reached _ _ _ db hdb)
    have hvdb : v = db := by
      rcases hcase with h | ⟨coll, _, h⟩
      · obtain ⟨r, hr, m, _, rfl⟩ := Mongod.mongod_mem_dbPart sd db s h
        have := hd db r hr
        simp only [List.mem_singleton, Prod.mk.injEq, true_and] at hv
        rw [hv, this]
      · obtain ⟨r, _, m, _, rfl⟩ := Mongod.mongod_mem_collPart sd db coll s h
        simpa using hv
    rw [hvdb]
    exact hex
  · intro s hmem v hv
    rw [Mongos.mongos_CollectDatabaseStatus_initial] at hmem
    obtain ⟨db, hdb, hcase⟩ := mem_scrape _ _ _ _ s hmem
    have hex := (Mongos.mongos_excluded_eq_false db).1 (not_excluded_of_mem_reached _ _ _ db hdb)
    have hvdb : v = db := by
      rcases hcase with h | ⟨coll, _, h⟩
      · obtain ⟨r, hr, m, _, e, he, rfl⟩ := Mongos.mongos_mem_dbPart ss db s h
        have := hs db r hr (e.1, some e.2) ((Mongos.mem_records _ e).1 he) e.2 rfl
        simp only [List.mem_cons, Prod.mk.injEq, true_and, List.not_mem_nil, or_false] at hv
        rcases hv with hv | hv
        · rw [hv, this]
        · exact absurd hv.1 (by decide)
      · obtain ⟨r, _, m, _, rfl⟩ := Mongos.mongos_mem_collPart ss db coll s h
        simpa using hv
    rw [hvdb]
    exact hex

/-- C4, witness: a standalone and a router-mode cluster that list excluded databases. -/
theorem excluded_never_db_label_witness :
    (∀ s ∈ (Mongod.CollectDatabaseStatus Mongod.partialFailure Registry.initial).2, ∀ v,
      ("db", v) ∈ s.labels → v ≠ "admin" ∧ v ≠ "test" ∧ v ≠ "local") ∧
    (∀ s ∈ (Mongos.CollectDatabaseStatus Mongos.partialFailure Registry.initial).ch, ∀ v,
      ("db", v) ∈ s.labels → v ≠ "admin" ∧ v ≠ "test") :=
  excluded_never_db_label Mongod.partialFailure Mongos.partialFailure
    (by
      intro db r h
      by_cases hdb : db = "shop"
      · subst hdb
        cases h
        rfl
      · simp [Mongod.partialFailure, hdb] at h)
    (by
      intro db r h e he stats hst
      by_cases hdb : db = "shop"
      · subst hdb
        cases h
        simp only [Mongos.twoShardReply, List.mem_cons, List.mem_singleton, List.not_mem_nil,
          or_false] at he
        rcases he with rfl | rfl <;> cases hst <;> rfl
      · simp [Mongos.partialFailure, hdb] at h)

/-- C4, counterexample: a collection named `test` in the router-mode database `shop` is
exported with the label value `test`; and a standalone `dbStats` reply for `shop` that names
the database `admin` is exported with the label value `admin`. -/
theorem excluded_name_as_label_value :
    ({ metric := .collectionSize, labels := [("db", "shop"), ("coll", "test")], value := 100 } ∈
      (Mongos.CollectDatabaseStatus Mongos.collectionNamedTest Registry.initial).ch) ∧
    ({ metric := .indexSize, labels := [("db", "admin")], value := 3 } ∈
      (Mongod.CollectDatabaseStatus Mongod.replyNamesAdmin Registry.initial).2) := by
  decide

/-! ## Consecutive scrapes -/

theorem Mongos.scrapes_initial
    (hist : List (Session Mongos.DatabaseStatus Mongos.CollectionStatus)) (reg : Registry)
    (h : Mongos.scrapes hist Registry.initial = some reg) : reg = Registry.initial := by
  induction hist with
  | nil =>
    simp only [Mongos.scrapes, Option.some.injEq] at h
    exact h.symm
  | cons session hist ih =>
    simp only [Mongos.scrapes] at h
    split at h
    · cases h
    · rename_i hp
      rw [Mongos.mongos_CollectDatabaseStatus_reg session (by simpa using hp)] at h
      exact ih h

/-- C9: after any run of router-mode scrapes on the same gauges, starting at process start
(a run ends with a scrape that panics), every gauge is without children; so in the next
scrape every emitted sample is a sample of the `Export` of a database or of a collection
fetched in that scrape, and when collection `c` is not listed for database `d` in that
scrape no emitted sample has the labels `db = d, coll = c`. -/
theorem Mongos.no_stale_samples
    (hist : List (Session Mongos.DatabaseStatus Mongos.CollectionStatus))
    (session : Session Mongos.DatabaseStatus Mongos.CollectionStatus) (d c : String)
    (reg : Registry)
    (hrun : Mongos.scrapes hist Registry.initial = some reg)
    (hgone : ∀ colls, session.CollectionNames d = some colls → c ∉ colls) :
    (∀ m, reg m = []) ∧
    (∀ s ∈ (Mongos.CollectDatabaseStatus session reg).ch,
      s.labels ≠ [("db", d), ("coll", c)]) ∧
    (∀ s ∈ (Mongos.CollectDatabaseStatus session reg).ch,
      ∃ db ∈ session.DatabaseNames.getD [], (db ≠ "admin" ∧ db ≠ "test") ∧
        ((∃ r, session.dbStats db = some r ∧ s ∈ (r.Export Registry.initial).ch) ∨
          ∃ coll ∈ (session.CollectionNames db).getD [], ∃ r,
            session.collStats db coll = some r ∧
              s ∈ (r.Export db coll Registry.initial).2)) := by
  rw [Mongos.scrapes_initial hist reg hrun, Mongos.mongos_CollectDatabaseStatus_initial]
  refine ⟨fun _ => rfl, ?_, ?_⟩
  · intro s hmem hlab
    obtain ⟨db, _, hcase⟩ := mem_scrape _ _ _ _ s hmem
    rcases hcase with h | ⟨coll, hcoll, h⟩
    · obtain ⟨r, _, m, _, e, _, rfl⟩ := Mongos.mongos_mem_dbPart session db s h
      simp only [List.cons.injEq, Prod.mk.injEq, true_and, and_true] at hlab
      exact absurd hlab.2.1 (by decide)
    · obtain ⟨r, _, m, _, rfl⟩ := Mongos.mongos_mem_collPart session db coll s h
      simp only [List.cons.injEq, Prod.mk.injEq, true_and, and_true] at hlab
      obtain ⟨h1, h2⟩ := hlab
      subst h1 h2
      have hcoll2 := Mongos.mem_collectionsListed session db coll hcoll
      cases hc : session.CollectionNames db with
      | none => simp [hc] at hcoll2
      | some colls =>
        rw [hc, Option.getD_some] at hcoll2
        exact hgone colls hc hcoll2
  · intro s hmem
    obtain ⟨db, hdb, hcase⟩ := mem_scrape _ _ _ _ s hmem
    refine ⟨db, (reached_sublist _ _ _).subset hdb,
      (Mongos.mongos_excluded_eq_false db).1 (not_excluded_of_mem_reached _ _ _ db hdb), ?_⟩
    rcases hcase with h | ⟨coll, hcoll, h⟩
    · left
      rw [Mongos.mongos_dbPart_eq] at h
      cases hr : session.dbStats db with
      | none => simp [hr] at h
      | some r => exact ⟨r, rfl, by simpa [hr] using h⟩
    · right
      refine ⟨coll, Mongos.mem_collectionsListed session db coll hcoll, ?_⟩
      rw [Mongos.mongos_collPart_eq] at h
      cases hr : session.collStats db coll with
      | none => simp [hr] at h
      | some r => exact ⟨r, rfl, by simpa [hr] using h⟩

/-- C9, witness: the collection `orders` of `shop` is exported in one scrape and dropped
before the next. -/
theorem Mongos.no_stale_samples_witness :
    ({ metric := .collectionSize, labels := [("db", "shop"), ("coll", "orders")],
       value := 100 } ∈ (Mongos.CollectDatabaseStatus Mongos.withOrders Registry.initial).ch) ∧
    ((∀ m, (Mongos.CollectDatabaseStatus Mongos.withOrders Registry.initial).reg m = []) ∧
    (∀ s ∈ (Mongos.CollectDatabaseStatus Mongos.ordersDropped
        (Mongos.CollectDatabaseStatus Mongos.withOrders Registry.initial).reg).ch,
      s.labels ≠ [("db", "shop"), ("coll", "orders")]) ∧
    (∀ s ∈ (Mongos.CollectDatabaseStatus Mongos.ordersDropped
        (Mongos.CollectDatabaseStatus Mongos.withOrders Registry.initial).reg).ch,
      ∃ db ∈ Mongos.ordersDropped.DatabaseNames.getD [], (db ≠ "admin" ∧ db ≠ "test") ∧
        ((∃ r, Mongos.ordersDropped.dbStats db = some r ∧
            s ∈ (r.Export Registry.initial).ch) ∨
          ∃ coll ∈ (Mongos.ordersDropped.CollectionNames db).getD [], ∃ r,
            Mongos.ordersDropped.collStats db coll = some r ∧
              s ∈ (r.Export db coll Registry.initial).2))) :=
  ⟨by decide,
    Mongos.no_stale_samples [Mongos.withOrders] Mongos.ordersDropped "shop" "orders"
      (Mongos.CollectDatabaseStatus Mongos.withOrders Registry.initial).reg
      (by
        have hp : (Mongos.CollectDatabaseStatus Mongos.withOrders Registry.initial).panicked
            = false := by decide
        simp [Mongos.scrapes, hp])
      (by
        intro colls h
        cases h
        decide)⟩

/-! ## Counting the samples of one database -/

theorem flatMap_eq_of_single {α β : Type} (l : List α) (f : α → List β) (a : α)
    (hl : l.Nodup) (ha : a ∈ l) (hf : ∀ x ∈ l, x ≠ a → f x = []) : l.flatMap f = f a := by
  induction l with
  | nil => cases ha
  | cons x l ih =>
    rw [List.nodup_cons] at hl
    rw [List.flatMap_cons]
    rcases List.mem_cons.1 ha with hax | hal
    · subst hax
      have hrest : l.flatMap f = [] := by
        rw [List.flatMap_eq_nil_iff]
        intro y hy
        exact hf y (List.mem_cons_of_mem _ hy) (fun h => hl.1 (h ▸ hy))
      rw [hrest, List.append_nil]
    · have hxa : x ≠ a := fun h => hl.1 (h ▸ hal)
      rw [hf x (List.mem_cons_self _ _) hxa, List.nil_append]
      exact ih hl.2 hal fun y hy => hf y (List.mem_cons_of_mem _ hy)

/-- C5, as amended: in standalone mode, when the listing names every database once and every
`dbStats` reply names the database it was asked about, then for every listed database that is
not `admin`, `test` or `local`, that the loop reaches (`CollectionNames` succeeded for every
database that is not excluded and is listed before it) and whose `dbStats` query succeeds,
the scrape emits exactly one sample for each of the five database gauges with the label
`db` set to that database, and it carries the corresponding field of the fetched record. -/
theorem Mongod.database_samples_exactly_once
    (session : Session Mongod.DatabaseStatus Mongod.CollectionStatus)
    (pre post : List String) (db : String) (dbStatus : Mongod.DatabaseStatus)
    (hall : session.DatabaseNames = some (pre ++ db :: post))
    (hnodup : (pre ++ db :: post).Nodup)
    (hdb : db ≠ "admin" ∧ db ≠ "test" ∧ db ≠ "local")
    (hpre : ∀ d ∈ pre, d ≠ "admin" ∧ d ≠ "test" ∧ d ≠ "local" →
      (session.CollectionNames d).isSome)
    (hfetch : session.dbStats db = some dbStatus)
    (hname : ∀ d r, session.dbStats d = some r → r.Name = d)
    (m : Metric) (hm : m ∈ dbMetrics) :
    (Mongod.CollectDatabaseStatus session Registry.initial).2.filter
        (fun s => s.metric = m ∧ s.labels = [("db", db)]) =
      [{ metric := m, labels := [("db", db)], value := Mongod.dbField m dbStatus }] := by
  rw [Mongod.mongod_CollectDatabaseStatus_initial, hall, Option.getD_some, List.filter_flatMap]
  have hreach : db ∈ reached Mongod.excluded session.CollectionNames (pre ++ db :: post) :=
    mem_reached_of_before _ _ pre post db ((Mongod.mongod_excluded_eq_false db).2 hdb)
      fun d hd hex => hpre d hd ((Mongod.mongod_excluded_eq_false d).1 hex)
  have hcoll : ∀ d, (((session.CollectionNames d).getD []).flatMap
      (Mongod.collPart session d)).filter
        (fun s => decide (s.metric = m ∧ s.labels = [("db", db)])) = [] := by
    intro d
    rw [List.filter_eq_nil_iff]
    intro s hs
    obtain ⟨coll, _, hs⟩ := List.mem_flatMap.1 hs
    obtain ⟨r, _, m', _, rfl⟩ := Mongod.mongod_mem_collPart session d coll s hs
    simp
  rw [flatMap_eq_of_single _ _ db ((reached_sublist _ _ _).nodup hnodup) hreach]
  · rw [entityOut, List.filter_append, hcoll, List.append_nil, Mongod.mongod_dbPart_eq, hfetch]
    simp only [Mongod.mongod_dbExport_samples, hname db dbStatus hfetch]
    simp only [dbMetrics, List.mem_cons, List.mem_singleton, List.not_mem_nil, or_false] at hm
    rcases hm with rfl | rfl | rfl | rfl | rfl <;> simp [dbMetrics, List.filter_cons]
  · intro d _ hne
    rw [entityOut, List.filter_append, hcoll, List.append_nil, List.filter_eq_nil_iff]
    intro s hs
    obtain ⟨r, hr, m', _, rfl⟩ := Mongod.mongod_mem_dbPart session d s hs
    simp [hname d r hr, hne]

/-- C5, witness: the data size of the database `logs`, listed after two excluded databases
and `shop`. -/
theorem Mongod.database_samples_exactly_once_witness :
    (Mongod.CollectDatabaseStatus Mongod.healthy Registry.initial).2.filter
        (fun s => s.metric = Metric.dataSize ∧ s.labels = [("db", "logs")]) =
      [{ metric := .dataSize, labels := [("db", "logs")], value := 30 }] :=
  Mongod.database_samples_exactly_once Mongod.healthy ["admin", "shop", "local"] [] "logs"
    { Name := "logs", IndexSize := 3, DataSize := 30, Collections := 2, Objects := 7,
      Indexes := 4 }
    rfl (by decide) (by decide) (by decide) rfl (by intro d r h; cases h; rfl)
    Metric.dataSize (by decide)

/-- C5, counterexample: the standalone database `shop` is listed, is not excluded and its
`dbStats` query succeeds, but the reply names the database `other`: no emitted sample has the
label `db` set to `shop`. -/
theorem Mongod.database_label_is_reply_name :
    Mongod.replyNamesOther.DatabaseNames = some ["shop"] ∧
    (Mongod.replyNamesOther.dbStats "shop").isSome ∧
    (∀ s ∈ (Mongod.CollectDatabaseStatus Mongod.replyNamesOther Registry.initial).2,
      ("db", "shop") ∉ s.labels) ∧
    ({ metric := .indexSize, labels := [("db", "other")], value := 3 } ∈
      (Mongod.CollectDatabaseStatus Mongod.replyNamesOther Registry.initial).2) := by
  decide

/-! ## Distinct label tuples -/

theorem nodup_flatMap_of_tag {α β : Type} (P : α → β → Prop) (l : List α) (f : α → List β)
    (hl : l.Nodup) (hf : ∀ a ∈ l, (f a).Nodup) (hP : ∀ a ∈ l, ∀ b ∈ f a, P a b)
    (huniq : ∀ a a2 b, P a b → P a2 b → a = a2) : (l.flatMap f).Nodup := by
  refine List.nodup_flatMap.2 ⟨hf, ?_⟩
  refine List.Pairwise.imp_of_mem ?_ hl
  intro a a2 ha ha2 hne
  show List.Disjoint (f a) (f a2)
  intro b hb hb2
  exact hne (huniq a a2 b (hP a ha b hb) (hP a2 ha2 b hb2))

theorem scrape_keys_nodup (dbPart : String → List Sample)
    (collNames : String → Option (List String)) (collPart : String → String → List Sample)
    (l : List String) (hl : l.Nodup)
    (hdbN : ∀ db ∈ l, ((dbPart db).map Sample.key).Nodup)
    (hdb : ∀ db ∈ l, ∀ s ∈ dbPart db,
      s.metric ∈ dbMetrics ∧ ∃ rest, s.labels = ("db", db) :: rest)
    (hcollN : ∀ db coll, ((collPart db coll).map Sample.key).Nodup)
    (hcoll : ∀ db coll, ∀ s ∈ collPart db coll,
      s.metric ∈ collMetrics ∧ s.labels = [("db", db), ("coll", coll)])
    (hcn : ∀ db ∈ l, ((collNames db).getD []).Nodup) :
    ((l.flatMap (entityOut dbPart collNames collPart)).map Sample.key).Nodup := by
  rw [List.map_flatMap]
  refine nodup_flatMap_of_tag (fun db k => ∃ rest, k.2 = ("db", db) :: rest) l _ hl ?_ ?_ ?_
  · intro db hmem
    rw [entityOut, List.map_append, List.map_flatMap]
    refine List.Nodup.append (hdbN db hmem) ?_ ?_
    · refine nodup_flatMap_of_tag (fun coll k => k.2 = [("db", db), ("coll", coll)]) _ _
        (hcn db hmem) (fun coll _ => hcollN db coll) ?_ ?_
      · intro coll _ k hk
        obtain ⟨s, hs, rfl⟩ := List.mem_map.1 hk
        exact (hcoll db coll s hs).2
      · intro c1 c2 k h1 h2
        rw [h1] at h2
        simpa using h2
    · intro k hk1 hk2
      obtain ⟨s, hs, rfl⟩ := List.mem_map.1 hk1
      obtain ⟨coll, _, hk2⟩ := List.mem_flatMap.1 hk2
      obtain ⟨s2, hs2, heq⟩ := List.mem_map.1 hk2
      have h1 := (hdb db hmem s hs).1
      have h2 := (hcoll db coll s2 hs2).1
      have hm : s2.metric = s.metric := congrArg Prod.fst heq
      rw [hm] at h2
      revert h1 h2
      generalize s.metric = m
      cases m <;> simp [dbMetrics, collMetrics]
  · intro db hmem k hk
    obtain ⟨s, hs, rfl⟩ := List.mem_map.1 hk
    rcases List.mem_append.1 hs with hs | hs
    · exact (hdb db hmem s hs).2
    · obtain ⟨coll, _, hs⟩ := List.mem_flatMap.1 hs
      exact ⟨_, (hcoll db coll s hs).2⟩
  · intro d1 d2 k h1 h2
    obtain ⟨r1, h1⟩ := h1
    obtain ⟨r2, h2⟩ := h2
    rw [h1] at h2
    simp only [List.cons.injEq, Prod.mk.injEq, true_and] at h2
    exact h2.1

theorem Mongod.mongod_dbPart_keys (session : Session Mongod.DatabaseStatus Mongod.CollectionStatus)
    (db : String) : ((Mongod.dbPart session db).map Sample.key).Nodup := by
  rw [Mongod.mongod_dbPart_eq]
  cases session.dbStats db with
  | none => exact List.nodup_nil
  | some r => simp [Mongod.mongod_dbExport_samples, dbMetrics, Sample.key]

theorem Mongod.mongod_collPart_keys
    (session : Session Mongod.DatabaseStatus Mongod.CollectionStatus) (db coll : String) :
    ((Mongod.collPart session db coll).map Sample.key).Nodup := by
  rw [Mongod.mongod_collPart_eq]
  cases session.collStats db coll with
  | none => exact List.nodup_nil
  | some r => simp [Mongod.mongod_collExport_samples, collMetrics, Sample.key]

theorem Mongos.mongos_collPart_keys
    (session : Session Mongos.DatabaseStatus Mongos.CollectionStatus) (db coll : String) :
    ((Mongos.collPart session db coll).map Sample.key).Nodup := by
  rw [Mongos.mongos_collPart_eq]
  cases session.collStats db coll with
  | none => exact List.nodup_nil
  | some r => simp [Mongos.mongos_collExport_samples, Sample.key]

theorem Mongos.mongos_dbExport_keys (dbStatus : Mongos.DatabaseStatus) :
    ((dbStatus.Export Registry.initial).ch.map Sample.key).Nodup := by
  rcases Mongos.mongos_dbExport_cases dbStatus with hrec | hnil
  swap
  · rw [(Mongos.mongos_dbExport_panics dbStatus _ hnil).2]
    exact List.nodup_nil
  rw [Mongos.mongos_dbExport_samples dbStatus hrec, List.map_flatMap]
  refine nodup_flatMap_of_tag (fun m k => k.1 = m) dbMetrics _ (by decide) ?_ ?_ ?_
  · intro m _
    have hk := GaugeVec.nodup_keys_setAll
      ((Mongos.records dbStatus.Shards).map (Mongos.shardEntry m)) [] List.nodup_nil
    have hform : ∀ x ∈ (GaugeVec.setAll []
        ((Mongos.records dbStatus.Shards).map (Mongos.shardEntry m))).map
        Prod.fst, ∃ a b, x = [a, b] := by
      intro x hx
      obtain ⟨kv, hkv, rfl⟩ := List.mem_map.1 hx
      rcases GaugeVec.mem_setAll _ _ kv hkv with h | h
      · simp at h
      · obtain ⟨e, _, rfl⟩ := List.mem_map.1 h
        exact ⟨_, _, rfl⟩
    have := List.Nodup.map_on (f := fun k => (m, Mongos.dbLabelNames.zip k)) (by
      intro x hx y hy hxy
      obtain ⟨a, b, rfl⟩ := hform x hx
      obtain ⟨c, d, rfl⟩ := hform y hy
      simpa [Mongos.dbLabelNames] using hxy) hk
    simpa [List.map_map, Function.comp_def, Sample.key] using this
  · intro m _ k hk
    obtain ⟨s, hs, rfl⟩ := List.mem_map.1 hk
    obtain ⟨kv, _, rfl⟩ := List.mem_map.1 hs
    rfl
  · intro m1 m2 k h1 h2
    rw [← h1, ← h2]

theorem Mongos.mongos_dbPart_keys (session : Session Mongos.DatabaseStatus Mongos.CollectionStatus)
    (db : String) : ((Mongos.dbPart session db).map Sample.key).Nodup := by
  rw [Mongos.mongos_dbPart_eq]
  cases session.dbStats db with
  | none => exact List.nodup_nil
  | some r => exact Mongos.mongos_dbExport_keys r

/-- C6, as amended: when the listing names every database once, every collection listing
names every collection once and every `dbStats` reply names the database it was asked about
(in router mode: every record of its shard map that is not nil does), no two samples
emitted by
`CollectDatabaseStatus` in one scrape have the same gauge and the same label pairs. -/
theorem sample_keys_nodup
    (sd : Session Mongod.DatabaseStatus Mongod.CollectionStatus)
    (ss : Session Mongos.DatabaseStatus Mongos.CollectionStatus)
    (hdl : ∀ all, sd.DatabaseNames = some all → all.Nodup)
    (hdc : ∀ db colls, sd.CollectionNames db = some colls → colls.Nodup)
    (hdn : ∀ db r, sd.dbStats db = some r → r.Name = db)
    (hsl : ∀ all, ss.DatabaseNames = some all → all.Nodup)
    (hsc : ∀ db colls, ss.CollectionNames db = some colls → colls.Nodup)
    (hsn : ∀ db r, ss.dbStats db = some r →
      ∀ e ∈ r.Shards, ∀ stats, e.2 = some stats → stats.Name = db) :
    ((Mongod.CollectDatabaseStatus sd Registry.initial).2.map Sample.key).Nodup ∧
    ((Mongos.CollectDatabaseStatus ss Registry.initial).ch.map Sample.key).Nodup := by
  have hgetD : ∀ (o : Option (List String)), (∀ l, o = some l → l.Nodup) →
      (o.getD []).Nodup := by
    intro o h
    cases o with
    | none => exact List.nodup_nil
    | some l => exact h l rfl
  constructor
  · rw [Mongod.mongod_CollectDatabaseStatus_initial]
    refine scrape_keys_nodup _ _ _ _
      ((reached_sublist _ _ _).nodup (hgetD _ hdl))
      (fun db _ => Mongod.mongod_dbPart_keys sd db) ?_
      (fun db coll => Mongod.mongod_collPart_keys sd db coll) ?_
      (fun db _ => hgetD _ (hdc db))
    · intro db _ s hs
      obtain ⟨r, hr, m, hm, rfl⟩ := Mongod.mongod_mem_dbPart sd db s hs
      exact ⟨hm, [], by rw [hdn db r hr]⟩
    · intro db coll s hs
      obtain ⟨r, _, m, hm, rfl⟩ := Mongod.mongod_mem_collPart sd db coll s hs
      exact ⟨hm, rfl⟩
  · rw [Mongos.mongos_CollectDatabaseStatus_initial]
    refine scrape_keys_nodup _ _ _ _
      ((reached_sublist _ _ _).nodup (hgetD _ hsl))
      (fun db _ => Mongos.mongos_dbPart_keys ss db) ?_
      (fun db coll => Mongos.mongos_collPart_keys ss db coll) ?_
      (fun db _ => hgetD _ fun l hl => hsc db l (Mongos.collectionsListed_some ss db l hl))
    · intro db _ s hs
      obtain ⟨r, hr, m, hm, e, he, rfl⟩ := Mongos.mongos_mem_dbPart ss db s hs
      exact ⟨hm, _, by rw [hsn db r hr (e.1, some e.2) ((Mongos.mem_records _ e).1 he) e.2 rfl]⟩
    · intro db coll s hs
      obtain ⟨r, _, m, hm, rfl⟩ := Mongos.mongos_mem_collPart ss db coll s hs
      exact ⟨hm, rfl⟩

/-- C6, witness: a standalone and a router-mode cluster with two exported databases of two
collections each. -/
theorem sample_keys_nodup_witness :
    ((Mongod.CollectDatabaseStatus Mongod.healthy Registry.initial).2.map Sample.key).Nodup ∧
    ((Mongos.CollectDatabaseStatus Mongos.healthy Registry.initial).ch.map Sample.key).Nodup :=
  sample_keys_nodup Mongod.healthy Mongos.healthy
    (by intro all h; cases h; decide)
    (by intro db colls h; cases h; decide)
    (by intro db r h; cases h; rfl)
    (by intro all h; cases h; decide)
    (by intro db colls h; cases h; decide)
    (by
      intro db r h e he stats hst
      cases h
      simp only [List.mem_cons, List.mem_singleton, List.not_mem_nil, or_false] at he
      rcases he with rfl | rfl <;> cases hst <;> rfl)

/-- C6, counterexample: the standalone `dbStats` replies for the databases `a` and `b` both
name the database `a`; each `Export` emits and resets, so the scrape emits two samples of the
gauge `index_size_bytes` with the label `db` set to `a`. -/
theorem two_samples_same_labels :
    ((Mongod.CollectDatabaseStatus Mongod.twoRepliesOneName Registry.initial).2.filter
      fun s => s.metric = Metric.indexSize ∧ s.labels = [("db", "a")]).length = 2 ∧
    ¬ ((Mongod.CollectDatabaseStatus Mongod.twoRepliesOneName Registry.initial).2.map
      Sample.key).Nodup := by
  decide

/-! ## Two scrapes of an unchanged cluster -/

theorem perm_flatMap_of_forall {α β : Type} (l : List α) (f g : α → List β)
    (h : ∀ a ∈ l, (f a).Perm (g a)) : (l.flatMap f).Perm (l.flatMap g) := by
  induction l with
  | nil => exact List.Perm.refl _
  | cons a l ih =>
    rw [List.flatMap_cons, List.flatMap_cons]
    exact List.Perm.append (h a (List.mem_cons_self _ _))
      (ih fun x hx => h x (List.mem_cons_of_mem _ hx))

theorem Mongos.Export_perm (a b : Mongos.DatabaseStatus) (hperm : a.Shards.Perm b.Shards)
    (hrec : ∀ e ∈ a.Shards, e.2 ≠ none)
    (h : ((Mongos.records a.Shards).map fun e => (e.2.Name, shardId e.1)).Nodup) :
    (b.Export Registry.initial).ch.Perm (a.Export Registry.initial).ch := by
  have hrecb : ∀ e ∈ b.Shards, e.2 ≠ none := fun e he => hrec e (hperm.mem_iff.2 he)
  have hp : (Mongos.records a.Shards).Perm (Mongos.records b.Shards) :=
    List.Perm.filterMap _ hperm
  have hb : ((Mongos.records b.Shards).map fun e => (e.2.Name, shardId e.1)).Nodup :=
    (List.Perm.nodup_iff (List.Perm.map _ hp)).1 h
  rw [Mongos.Export_samples_of_nodup a hrec h, Mongos.Export_samples_of_nodup b hrecb hb]
  exact perm_flatMap_of_forall _ _ _ fun m _ => List.Perm.map _ hp.symm

theorem Mongos.faults_eq_false (session : Session Mongos.DatabaseStatus Mongos.CollectionStatus)
    (h : ∀ db r, session.dbStats db = some r → ∀ e ∈ r.Shards, e.2 ≠ none) (db : String) :
    Mongos.faults session db = false := by
  unfold Mongos.faults Mongos.GetDatabaseStatus
  cases hr : session.dbStats db with
  | none => rfl
  | some r => exact Mongos.mongos_dbExport_returns r _ (h db r hr)

theorem Mongos.collectionsListed_eq
    (session : Session Mongos.DatabaseStatus Mongos.CollectionStatus)
    (h : ∀ db r, session.dbStats db = some r → ∀ e ∈ r.Shards, e.2 ≠ none) :
    Mongos.collectionsListed session = session.CollectionNames := by
  funext db
  simp [Mongos.collectionsListed, Mongos.faults_eq_false session h db]

/-- C10, as amended: a second standalone scrape on the same gauges against an unchanged
cluster emits the samples of the first; a second router-mode scrape against an unchanged
cluster, whose shard maps may be visited in another order, emits the same samples as the
first up to their order, provided that no shard map holds a nil record and that within each
shard map no two entries yield the same (`Name`, shard id) label pair. -/
theorem second_scrape_same_samples
    (sd : Session Mongod.DatabaseStatus Mongod.CollectionStatus)
    (ss : Session Mongos.DatabaseStatus Mongos.CollectionStatus)
    (dbStats2 : String → Option Mongos.DatabaseStatus)
    (hsame : ∀ db, Mongos.sameReply (ss.dbStats db) (dbStats2 db))
    (hrec : ∀ db r, ss.dbStats db = some r → ∀ e ∈ r.Shards, e.2 ≠ none)
    (hdistinct : ∀ db r, ss.dbStats db = some r →
      ((Mongos.records r.Shards).map fun e => (e.2.Name, shardId e.1)).Nodup) :
    (Mongod.CollectDatabaseStatus sd (Mongod.CollectDatabaseStatus sd Registry.initial).1).2 =
      (Mongod.CollectDatabaseStatus sd Registry.initial).2 ∧
    (Mongos.CollectDatabaseStatus { ss with dbStats := dbStats2 }
        (Mongos.CollectDatabaseStatus ss Registry.initial).reg).ch.Perm
      (Mongos.CollectDatabaseStatus ss Registry.initial).ch := by
  constructor
  · simp only [Mongod.mongod_CollectDatabaseStatus_initial]
  · have hrec2 : ∀ db r, dbStats2 db = some r → ∀ e ∈ r.Shards, e.2 ≠ none := by
      intro db r hr e he
      have hs := hsame db
      rw [hr] at hs
      cases ha : ss.dbStats db with
      | none => simp [ha, Mongos.sameReply] at hs
      | some a =>
        rw [ha] at hs
        exact hrec db a ha e (hs.2.mem_iff.2 he)
    rw [Mongos.mongos_CollectDatabaseStatus_reg ss
        (Mongos.mongos_CollectDatabaseStatus_returns ss (Mongos.faults_eq_false ss hrec)),
      Mongos.mongos_CollectDatabaseStatus_initial ss,
      Mongos.mongos_CollectDatabaseStatus_initial,
      Mongos.collectionsListed_eq ss hrec,
      Mongos.collectionsListed_eq { ss with dbStats := dbStats2 } hrec2]
    refine perm_flatMap_of_forall _ _ _ fun db _ => ?_
    rw [entityOut, entityOut]
    refine List.Perm.append ?_ (List.Perm.of_eq ?_)
    · rw [Mongos.mongos_dbPart_eq, Mongos.mongos_dbPart_eq]
      show (match dbStats2 db with
        | some dbStatus => (dbStatus.Export Registry.initial).ch
        | none => []).Perm _
      have hs := hsame db
      have hr := hrec db
      have hd := hdistinct db
      revert hs hr hd
      cases ss.dbStats db with
      | none =>
        cases dbStats2 db with
        | none => intro _ _ _; exact List.Perm.refl _
        | some b => intro hs _ _; exact absurd hs (by simp [Mongos.sameReply])
      | some a =>
        cases dbStats2 db with
        | none => intro hs _ _; exact absurd hs (by simp [Mongos.sameReply])
        | some b =>
          intro hs hr hd
          exact Mongos.Export_perm a b hs.2 (hr a rfl) (hd a rfl)
    · congr 1

/-- C10, witness: a standalone cluster, and a router-mode cluster whose second scrape visits
the two shards of every database in the other order. -/
theorem second_scrape_same_samples_witness :
    (Mongod.CollectDatabaseStatus Mongod.healthy
        (Mongod.CollectDatabaseStatus Mongod.healthy Registry.initial).1).2 =
      (Mongod.CollectDatabaseStatus Mongod.healthy Registry.initial).2 ∧
    (Mongos.CollectDatabaseStatus
        { Mongos.withOrders with dbStats := fun _ => some Mongos.twoShardReplyReordered }
        (Mongos.CollectDatabaseStatus Mongos.withOrders Registry.initial).reg).ch.Perm
      (Mongos.CollectDatabaseStatus Mongos.withOrders Registry.initial).ch :=
  second_scrape_same_samples Mongod.healthy Mongos.withOrders
    (fun _ => some Mongos.twoShardReplyReordered)
    (fun _ => ⟨rfl, List.Perm.swap _ _ _⟩)
    (by intro db r h; cases h; decide)
    (by intro db r h; cases h; decide)

/-- C10, counterexample: the shard map of `shop` has two descriptors with the shard id `s1`;
the cluster is unchanged, the second scrape visits the two entries in the other order, and
the value emitted for `index_size_bytes` with the labels `db = shop, shard = s1` is 2 in the
first scrape and 1 in the second. -/
theorem second_scrape_other_value :
    (∀ db, Mongos.sameReply (Mongos.colliding.dbStats db)
      (some Mongos.collidingReplyReordered)) ∧
    ({ metric := .indexSize, labels := [("db", "shop"), ("shard", "s1")], value := 2 } ∈
      (Mongos.CollectDatabaseStatus Mongos.colliding Registry.initial).ch) ∧
    ({ metric := .indexSize, labels := [("db", "shop"), ("shard", "s1")], value := 2 } ∉
      (Mongos.CollectDatabaseStatus
        { Mongos.colliding with dbStats := fun _ => some Mongos.collidingReplyReordered }
        (Mongos.CollectDatabaseStatus Mongos.colliding Registry.initial).reg).ch) ∧
    ({ metric := .indexSize, labels := [("db", "shop"), ("shard", "s1")], value := 1 } ∈
      (Mongos.CollectDatabaseStatus
        { Mongos.colliding with dbStats := fun _ => some Mongos.collidingReplyReordered }
        (Mongos.CollectDatabaseStatus Mongos.colliding Registry.initial).reg).ch) := by
  refine ⟨fun _ => ⟨rfl, List.Perm.swap _ _ _⟩, by decide, by decide, by decide⟩

end MongodbExporter
